import Mathlib

/-!
# pam_xauth: forwarding of X authority cookies across a user switch

A shallow embedding of `modules/pam_xauth/pam_xauth.c`.

* C strings are lists of characters without the terminating NUL; buffers that
  may hold NUL bytes (the line buffer of `check_acl`, the output captured by
  `run_coprocess`) are lists of characters read through `cstr`.
* Everything outside the module (environment, identity lookups, file system,
  child processes, allocator, `fnmatch`, `strtol`, `limits.h`) is a field of
  `World`.
* Every call that leaves the module is recorded, in program order, as an
  `Event`; the `syslog` calls, `getuid`/`getgid`/`geteuid` and `free` are not
  recorded.  A `setfsuid(u); op; setfsuid(euid)` bracket is recorded as the
  event of `op` carrying `u`, the uid asked for; `setfsuid` reports no failure
  and the module checks none.  The child of `run_coprocess` is recorded with the
  gid and uid it asks for and the outcome of `setgid`, `setgroups` and `setuid`,
  which the module does not check.  `strdup` is taken to succeed.
* The two loops are total: the reading loop of `run_coprocess` runs over the
  finite list of reads of the child, the line loop of `check_acl` has one unit
  of fuel per `fgets`, and a file of `k` characters is given `k + 1` units.
-/

namespace PamXauth

set_option linter.unusedVariables false

/-! ## Constants -/

/-- Key of the session data item, `#define DATANAME`. -/
def DATANAME : List Char := "pam_xauth_cookie_file".toList

/-- Default authority tool, `#define XAUTHBIN`. -/
def XAUTHBIN : List Char := "/usr/X11R6/bin/xauth".toList

/-- Name of the authority variable, `#define XAUTHENV`. -/
def XAUTHENV : List Char := "XAUTHORITY".toList

/-- Default authority file name, `#define XAUTHDEF`. -/
def XAUTHDEF : List Char := ".Xauthority".toList

/-- Template of the temporary file name, `#define XAUTHTMP`. -/
def XAUTHTMP : List Char := ".xauthXXXXXX".toList

/-- The string literal "DISPLAY" used with `getenv`. -/
def DISPLAYENV : List Char := "DISPLAY".toList

/-- Modelled from the spec: the result codes are macros of the PAM headers,
which are not among the sources.  The spec calls this one Success (Permit for
an access decision).  The number is the one of Linux-PAM; only the fact that
the three codes differ is used. -/
def PAM_SUCCESS : Int := 0

/-- Modelled from the spec: the code the spec calls Deny (see `PAM_SUCCESS`). -/
def PAM_PERM_DENIED : Int := 6

/-- Modelled from the spec: the code the spec calls session error (see `PAM_SUCCESS`). -/
def PAM_SESSION_ERR : Int := 14

/-- Modelled from the spec: the `errno` value of "file does not exist"; `errno.h`
is not among the sources. -/
def ENOENT : Int := 2

/-! ## Data -/

/-- The fields of `struct passwd` the module reads. -/
structure passwd where
  pw_name : List Char
  pw_uid : Nat
  pw_gid : Nat
  pw_dir : List Char
deriving DecidableEq

/-- Result of `fopen(path, "r")`: a stream with the bytes that can be read from
it, or NULL with `errno`. -/
inductive FopenResult
  | opened (contents : List Char)
  | failed (errno : Int)
deriving DecidableEq

/-- What one `_pammodutil_read` call on the child's output gives: some bytes
(the return value is their number), 0 at end of stream, or -1. -/
inductive ReadResult
  | data (bytes : List Char)
  | eof
  | err
deriving DecidableEq

/-- What the system does during one `run_coprocess` call: whether the pipes and
the fork succeed, whether `setgid`, `setgroups` and `setuid` succeed in the
child (their results are not checked), what the reads of the child's output
give and which allocations succeed. -/
structure Child where
  pipe_in_ok : Bool
  pipe_out_ok : Bool
  fork_ok : Bool
  setgid_ok : Bool
  setgroups_ok : Bool
  setuid_ok : Bool
  reads : List ReadResult
  realloc_ok : Nat → Bool

/-- The calls that leave the module. -/
inductive Event
  | getenv (name : List Char)
  | pam_get_user
  | getpwuid (uid : Nat)
  | getpwnam (name : List Char)
  | fopen (fsuid : Nat) (path : List Char) (res : FopenResult)
  | run_coprocess (input : Option (List Char)) (uid gid : Nat) (command : List Char)
      (args : List (List Char)) (ret : Int) (output : Option (List Char))
  /-- The child of `run_coprocess`: `setgid(gid)`, `setgroups(0, NULL)` and
  `setuid(uid)` with their outcomes, then `execvp` of `argv`. -/
  | exec (gid : Nat) (setgid_ok setgroups_ok : Bool) (uid : Nat) (setuid_ok : Bool)
      (argv : List (List Char))
  | write_stdin (bytes : List Char)
  | gethostname (res : Option (List Char))
  | mkstemp (fsuid : Nat) (template : List Char) (res : Option (List Char))
  | fchown (path : List Char) (uid gid : Nat)
  | pam_set_data (key value : List Char) (ok : Bool)
  | unlink (path : List Char) (ok : Bool)
  | unsetenv (name : List Char)
  | pam_putenv (s : List Char)
  | putenv (s : List Char)
deriving DecidableEq

/-- Everything the module asks of its surroundings. -/
structure World where
  /-- `sizeof(buf)` of the line buffers, from `limits.h`. -/
  LINE_MAX : Nat
  /-- `sizeof(path)` in `check_acl`, from `limits.h`. -/
  PATH_MAX : Nat
  /-- The process environment at entry, `getenv`. -/
  environ : List Char → Option (List Char)
  /-- `getuid()`. -/
  uid : Nat
  /-- `getgid()`. -/
  gid : Nat
  /-- `pam_get_user`: the target user name, or failure. -/
  pam_user : Option (List Char)
  getpwuid : Nat → Option passwd
  getpwnam : List Char → Option passwd
  /-- `fopen(path, "r")` after `setfsuid` to the given uid. -/
  fopen : Nat → List Char → FopenResult
  /-- Content of the line buffer of `check_acl` before the first `fgets`. -/
  linebuf : List Char
  /-- `fnmatch(pattern, string, 0) == 0`. -/
  fnmatch : List Char → List Char → Bool
  /-- `strtol(s, &tmp, 10)`: the value and what `tmp` points at. -/
  strtol : List Char → Int × List Char
  /-- `malloc` of the source authority file name succeeds. -/
  malloc_cookiefile : Bool
  /-- `malloc` of the rewritten display name succeeds. -/
  malloc_t : Bool
  /-- `malloc` of the `XAUTHORITY=...` string succeeds. -/
  malloc_xauthority : Bool
  /-- `malloc` of the `DISPLAY=...` string succeeds. -/
  malloc_d : Bool
  /-- `gethostname(t, len)`: the name stored, or failure. -/
  gethostname : Nat → Option (List Char)
  /-- The child of the first listing call. -/
  nlist_proc : Child
  /-- The child of the listing call for the rewritten display name. -/
  nlist2_proc : Child
  /-- The child of the merge call. -/
  nmerge_proc : Child
  /-- `mkstemp(template)` after `setfsuid` to the given uid: the six characters
  put in place of `XXXXXX`, or failure. -/
  mkstemp : Nat → List Char → Option (List Char)
  /-- `pam_set_data` returns `PAM_SUCCESS`. -/
  pam_set_data_ok : Bool
  /-- `unlink(path)` succeeds. -/
  unlink_ok : List Char → Bool

/-- Result and recorded calls of a function of the module. -/
structure Outcome where
  result : Int
  trace : List Event
deriving DecidableEq

/-- Runs `o` after the calls `pre`. -/
def Outcome.after (pre : List Event) (o : Outcome) : Outcome :=
  ⟨o.result, pre ++ o.trace⟩

/-! ## C strings -/

/-- The C string held by a buffer: the bytes before the first NUL. -/
def cstr (buf : List Char) : List Char :=
  buf.takeWhile (fun c => c != '\x00')

/-- `tmp = memchr(buf, c, sizeof(buf)); if (tmp != NULL) *tmp = '\0';` -/
def zeroFirst (c : Char) : List Char → List Char
  | [] => []
  | b :: bs => if b = c then '\x00' :: bs else b :: zeroFirst c bs

/-- Writes `data` at the start of `buf`; the bytes of `buf` behind it stay. -/
def store (buf data : List Char) : List Char :=
  data ++ buf.drop data.length

/-- One `fgets(buf, n, fp)`: the characters stored (up to and including the
first newline, at most `n - 1`) and the rest of the stream.  No character
stored stands for the NULL result. -/
def fgets (n : Nat) : List Char → List Char × List Char
  | [] => ([], [])
  | c :: cs =>
    match n with
    | 0 => ([], c :: cs)
    | 1 => ([], c :: cs)
    | m + 2 =>
      if c = '\n' then ([c], cs)
      else (c :: (fgets (m + 1) cs).1, (fgets (m + 1) cs).2)

/-! ## run_coprocess -/

/-- Result of `run_coprocess`: return value, `*output` and the calls made. -/
structure RunResult where
  ret : Int
  output : Option (List Char)
  trace : List Event

/-- The loop `while ((i != 0) && (i != -1))` of `run_coprocess`.  `buffer` is the
data gathered so far (`none` for the NULL pointer); the result is the return
value and `*output`, which is NULL when `realloc` fails.  A list of reads that
runs out stands for the end of the stream. -/
def read_loop (realloc_ok : Nat → Bool) :
    Option (List Char) → List ReadResult → Int × Option (List Char)
  | buffer, [] => (0, buffer)
  | buffer, ReadResult.eof :: _ => (0, buffer)
  | buffer, ReadResult.err :: _ => (0, buffer)
  | buffer, ReadResult.data bytes :: rest =>
    if bytes.length = 0 then (0, buffer)
    else if realloc_ok ((buffer.getD []).length + bytes.length + 1) then
      read_loop realloc_ok (some (buffer.getD [] ++ bytes)) rest
    else (-1, none)

/-- The function `run_coprocess`: `va` are the variable arguments before the
NULL.  The child calls `setgid(gid)`, `setgroups(0, NULL)` and `setuid(uid)`,
whose results it does not check, and executes `command` with at most eight of
the arguments; the parent writes `strlen(input)` bytes of `input` and gathers
the output. -/
def run_coprocess (p : Child) (input : Option (List Char)) (uid gid : Nat)
    (command : List Char) (va : List (List Char)) : RunResult :=
  if !p.pipe_in_ok then ⟨-1, none, [Event.run_coprocess input uid gid command va (-1) none]⟩
  else if !p.pipe_out_ok then ⟨-1, none, [Event.run_coprocess input uid gid command va (-1) none]⟩
  else if !p.fork_ok then ⟨-1, none, [Event.run_coprocess input uid gid command va (-1) none]⟩
  else
    let child := Event.exec gid p.setgid_ok p.setgroups_ok uid p.setuid_ok
      (command :: va.take 8)
    let sent :=
      match input with
      | some s => [Event.write_stdin (cstr s)]
      | none => []
    let r := read_loop p.realloc_ok none p.reads
    ⟨r.1, r.2, Event.run_coprocess input uid gid command va r.1 r.2 :: child :: sent⟩

/-! ## check_acl -/

/-- The loop `while (fgets(buf, sizeof(buf), fp) != NULL)` of `check_acl`, with
one unit of `fuel` per round; `buf` is the content of the line buffer. -/
def scan_loop (line_max : Nat) (fnmatch : List Char → List Char → Bool)
    (other_user : List Char) : Nat → List Char → List Char → Int
  | 0, _, _ => PAM_PERM_DENIED
  | fuel + 1, buf, stream =>
    match fgets line_max stream with
    | ([], _) => PAM_PERM_DENIED
    | (c :: cs, rest) =>
      let buf1 := store buf ((c :: cs) ++ ['\x00'])
      let buf2 := zeroFirst '\r' buf1
      let buf3 := zeroFirst '\n' buf2
      if fnmatch (cstr buf3) other_user then PAM_SUCCESS
      else scan_loop line_max fnmatch other_user fuel buf3 rest

/-- The function `check_acl`. -/
def check_acl (w : World) (sense this_user other_user : List Char)
    (noent_code : Int) (debug : Bool) : Outcome :=
  match w.getpwnam this_user with
  | none => ⟨PAM_SESSION_ERR, [Event.getpwnam this_user]⟩
  | some pwd =>
    let path := pwd.pw_dir ++ "/.xauth/".toList ++ sense
    if w.PATH_MAX ≤ path.length then ⟨PAM_SESSION_ERR, [Event.getpwnam this_user]⟩
    else
      match w.fopen pwd.pw_uid path with
      | FopenResult.opened contents =>
        ⟨scan_loop w.LINE_MAX w.fnmatch other_user (contents.length + 1) w.linebuf contents,
          [Event.getpwnam this_user, Event.fopen pwd.pw_uid path (FopenResult.opened contents)]⟩
      | FopenResult.failed errno =>
        ⟨if errno = ENOENT then noent_code else PAM_PERM_DENIED,
          [Event.getpwnam this_user, Event.fopen pwd.pw_uid path (FopenResult.failed errno)]⟩

/-! ## pam_sm_open_session -/

/-- The options of the module. -/
structure Config where
  debug : Bool
  xauth : List Char
  targetuser : Nat
  systemuser : Nat
deriving DecidableEq

/-- The initial values of `debug`, `xauth`, `targetuser` and `systemuser`. -/
def Config.initial : Config := ⟨false, XAUTHBIN, 0, 499⟩

/-- Assignment of a `long` to a `uid_t` (32 bits, no sign). -/
def uid_of_long (l : Int) : Nat := (l % 4294967296).toNat

/-- One round of the argument loop of `pam_sm_open_session`. -/
def parse_arg (strtol : List Char → Int × List Char) (cfg : Config)
    (arg : List Char) : Config :=
  if arg = "debug".toList then { cfg with debug := true }
  else if arg.take 10 = "xauthpath=".toList then { cfg with xauth := arg.drop 10 }
  else if arg.take 11 = "targetuser=".toList then
    if 0 < (arg.drop 11).length ∧ (strtol (arg.drop 11)).2 = [] then
      { cfg with targetuser := uid_of_long (strtol (arg.drop 11)).1 }
    else cfg
  else if arg.take 11 = "systemuser=".toList then
    if 0 < (arg.drop 11).length ∧ (strtol (arg.drop 11)).2 = [] then
      { cfg with systemuser := uid_of_long (strtol (arg.drop 11)).1 }
    else cfg
  else cfg

/-- The argument loop of `pam_sm_open_session`. -/
def parse_args (strtol : List Char → Int × List Char) (argv : List (List Char)) : Config :=
  argv.foldl (parse_arg strtol) Config.initial

/-- The file name `mkstemp` leaves in the template buffer. -/
def mkstemp_name (template suffix : List Char) : List Char :=
  template.take (template.length - 6) ++ suffix

/-- The test `(cookie == NULL) || (strlen(cookie) == 0)`. -/
def cookie_empty (cookie : Option (List Char)) : Bool :=
  match cookie with
  | none => true
  | some s => (cstr s).length = 0

/-- The test on the prefixes "localhost:" and "localhost/unix:". -/
def is_local_display (display : List Char) : Bool :=
  display.take 10 = "localhost:".toList ∨ display.take 15 = "localhost/unix:".toList

/-- The adjusted display name `t`: host name, then "/unix:", then the screen,
each appended when it fits in `tlen` bytes. -/
def local_display_name (line_max : Nat) (display host : List Char) : List Char :=
  let tlen := display.length + line_max + 1
  let t0 := host.take (tlen - 1)
  let t1 := if t0.length < tlen - 6 then t0 ++ "/unix:".toList else t0
  match display.dropWhile (fun c => c != ':') with
  | [] => t1
  | _ :: screen => if t1.length + screen.length < tlen then t1 ++ screen else t1

/-- Lines 489-599: creation of the target's file, session data, environment and
merge, for a cookie that is not empty. -/
def forward_cookie (w : World) (cfg : Config) (display : List Char) (tpwd : passwd)
    (cookie : List Char) : Outcome :=
  if !w.malloc_xauthority then ⟨PAM_SESSION_ERR, []⟩
  else
    let template := tpwd.pw_dir ++ "/".toList ++ XAUTHTMP
    match w.mkstemp tpwd.pw_uid template with
    | none => ⟨PAM_SESSION_ERR, [Event.mkstemp tpwd.pw_uid template none]⟩
    | some suffix =>
      let cookiefile := mkstemp_name template suffix
      let xauthority := XAUTHENV ++ "=".toList ++ cookiefile
      let created := [Event.mkstemp tpwd.pw_uid template (some cookiefile),
        Event.fchown cookiefile tpwd.pw_uid tpwd.pw_gid]
      if !w.pam_set_data_ok then
        ⟨PAM_SESSION_ERR, created ++ [Event.pam_set_data DATANAME cookiefile false,
          Event.unlink cookiefile (w.unlink_ok cookiefile)]⟩
      else
        let unset :=
          match w.environ XAUTHENV with
          | some _ => [Event.getenv XAUTHENV, Event.unsetenv XAUTHENV]
          | none => [Event.getenv XAUTHENV]
        let published := created ++ [Event.pam_set_data DATANAME cookiefile true] ++ unset
          ++ [Event.pam_putenv xauthority, Event.putenv xauthority]
        if !w.malloc_d then ⟨PAM_SESSION_ERR, published⟩
        else
          let merge := run_coprocess w.nmerge_proc (some cookie) tpwd.pw_uid tpwd.pw_gid
            cfg.xauth ["-f".toList, cookiefile, "nmerge".toList, "-".toList]
          ⟨PAM_SUCCESS, published ++ [Event.pam_putenv ("DISPLAY=".toList ++ display)]
            ++ merge.trace⟩

/-- Lines 423-479: the second listing, for the adjusted name of a local
display.  Gives the value of `cookie` afterwards and the calls made. -/
def retry_listing (w : World) (cfg : Config) (display cookiefile : List Char)
    (cookie : Option (List Char)) : Option (List Char) × List Event :=
  if cookie_empty cookie ∧ is_local_display display then
    if !w.malloc_t then (none, [])
    else
      match w.gethostname (display.length + w.LINE_MAX + 1 - 1) with
      | none => (none, [Event.gethostname none])
      | some host =>
        let r := run_coprocess w.nlist2_proc none w.uid w.gid cfg.xauth
          ["-f".toList, cookiefile, "nlist".toList, local_display_name w.LINE_MAX display host]
        (r.output, Event.gethostname (some host) :: r.trace)
  else (cookie, [])

/-- Lines 418-599: the first listing and what follows it. -/
def read_cookie (w : World) (cfg : Config) (display : List Char) (tpwd : passwd)
    (cookiefile : List Char) : Outcome :=
  let r := run_coprocess w.nlist_proc none w.uid w.gid cfg.xauth
    ["-f".toList, cookiefile, "nlist".toList, display]
  if r.ret = 0 then
    let c := retry_listing w cfg display cookiefile r.output
    match c.1 with
    | none => ⟨PAM_SESSION_ERR, r.trace ++ c.2⟩
    | some cookie =>
      if (cstr cookie).length = 0 then ⟨PAM_SESSION_ERR, r.trace ++ c.2⟩
      else (forward_cookie w cfg display tpwd cookie).after (r.trace ++ c.2)
  else ⟨PAM_SUCCESS, r.trace⟩

/-- Lines 386-599: the source authority file and what follows. -/
def locate_cookiefile (w : World) (cfg : Config) (display : List Char)
    (rpwd tpwd : passwd) : Outcome :=
  match w.environ XAUTHENV with
  | some v =>
    (read_cookie w cfg display tpwd v).after [Event.getenv XAUTHENV, Event.getenv XAUTHENV]
  | none =>
    if !w.malloc_cookiefile then ⟨PAM_SESSION_ERR, [Event.getenv XAUTHENV]⟩
    else
      (read_cookie w cfg display tpwd (rpwd.pw_dir ++ "/".toList ++ XAUTHDEF)).after
        [Event.getenv XAUTHENV]

/-- Lines 368-599: the two access checks and what follows. -/
def check_both (w : World) (cfg : Config) (display user : List Char)
    (rpwd tpwd : passwd) : Outcome :=
  let ex := check_acl w "export".toList rpwd.pw_name user
    (if w.uid ≠ 0 then PAM_SUCCESS else PAM_PERM_DENIED) cfg.debug
  if ex.result ≠ PAM_SUCCESS then ⟨PAM_SESSION_ERR, ex.trace⟩
  else
    let im := check_acl w "import".toList user rpwd.pw_name PAM_SUCCESS cfg.debug
    if im.result ≠ PAM_SUCCESS then ⟨PAM_SESSION_ERR, ex.trace ++ im.trace⟩
    else (locate_cookiefile w cfg display rpwd tpwd).after (ex.trace ++ im.trace)

/-- The function `pam_sm_open_session`. -/
def pam_sm_open_session (w : World) (argv : List (List Char)) : Outcome :=
  let cfg := parse_args w.strtol argv
  match w.environ DISPLAYENV with
  | none => ⟨PAM_SUCCESS, [Event.getenv DISPLAYENV]⟩
  | some display =>
    match w.pam_user with
    | none => ⟨PAM_SESSION_ERR, [Event.getenv DISPLAYENV, Event.pam_get_user]⟩
    | some user =>
      match w.getpwuid w.uid with
      | none =>
        ⟨PAM_SESSION_ERR, [Event.getenv DISPLAYENV, Event.pam_get_user, Event.getpwuid w.uid]⟩
      | some rpwd =>
        match w.getpwnam user with
        | none =>
          ⟨PAM_SESSION_ERR, [Event.getenv DISPLAYENV, Event.pam_get_user,
            Event.getpwuid w.uid, Event.getpwnam user]⟩
        | some tpwd =>
          if tpwd.pw_uid ≠ 0 ∧ tpwd.pw_uid ≠ cfg.targetuser ∧ tpwd.pw_uid ≤ cfg.systemuser then
            ⟨PAM_SESSION_ERR, [Event.getenv DISPLAYENV, Event.pam_get_user,
              Event.getpwuid w.uid, Event.getpwnam user]⟩
          else
            (check_both w cfg display user rpwd tpwd).after
              [Event.getenv DISPLAYENV, Event.pam_get_user, Event.getpwuid w.uid,
                Event.getpwnam user]

/-! ## pam_sm_close_session -/

/-- Result of `pam_sm_close_session`: return value, the data item stored under
`DATANAME` afterwards (`none` when there is none) and the calls made. -/
structure CloseOutcome where
  result : Int
  data : Option (List Char)
  trace : List Event
deriving DecidableEq

/-- The function `pam_sm_close_session`; `data` is the string stored under
`DATANAME`, if any. -/
def pam_sm_close_session (w : World) (data : Option (List Char))
    (argv : List (List Char)) : CloseOutcome :=
  match data with
  | none => ⟨PAM_SUCCESS, none, []⟩
  | some cookiefile =>
    if 0 < cookiefile.length then
      ⟨PAM_SUCCESS, some [], [Event.unlink cookiefile (w.unlink_ok cookiefile)]⟩
    else ⟨PAM_SUCCESS, some cookiefile, []⟩

/-! ## The access list as the specification words it -/

/-- The pieces successive `fgets` calls with a buffer of `n` bytes read from a
stream, with one unit of `fuel` per call. -/
def pieces (n : Nat) : Nat → List Char → List (List Char)
  | 0, _ => []
  | fuel + 1, stream =>
    match fgets n stream with
    | ([], _) => []
    | (c :: cs, rest) => (c :: cs) :: pieces n fuel rest

/-- The pieces `fgets` reads from a whole file: its lines with their newline, a
line of more than `n - 2` characters coming in pieces of `n - 1`. -/
def fgets_pieces (n : Nat) (contents : List Char) : List (List Char) :=
  pieces n (contents.length + 1) contents

/-- A piece up to its first NUL, carriage return or newline. -/
def cut_line (piece : List Char) : List Char :=
  piece.takeWhile (fun c => c != '\x00' && c != '\r' && c != '\n')

/-- The lines of a text in the usual sense: the stretches between newlines. -/
def lines_of : List Char → List (List Char)
  | [] => []
  | c :: cs =>
    if c = '\n' then [] :: lines_of cs
    else
      match lines_of cs with
      | [] => [[c]]
      | l :: ls => (c :: l) :: ls

/-- A line without its trailing carriage returns and newlines. -/
def strip_eol (line : List Char) : List Char :=
  (line.reverse.dropWhile (fun c => c = '\r' || c = '\n')).reverse

/-- The decision as the specification words it: some line of the file, its
trailing carriage return and newline stripped, matches the user name. -/
def spec_permits (fnmatch : List Char → List Char → Bool) (contents other_user : List Char) :
    Bool :=
  (lines_of contents).any (fun l => fnmatch (strip_eol l) other_user)

/-! ## Example surroundings -/

/-- A matcher for the examples: `fnmatch` with flags 0 on patterns made of
ordinary characters, `?` and `*` (no brackets, no backslash). -/
def globMatch : List Char → List Char → Bool
  | [], s => s.isEmpty
  | c :: p, s =>
    if c = '*' then s.tails.any (fun t => globMatch p t)
    else
      match s with
      | [] => false
      | d :: s1 => (c = '?' || c = d) && globMatch p s1

/-- The user alice. -/
def alice : passwd := ⟨"alice".toList, 1000, 100, "/home/alice".toList⟩

/-- The user bob, in the same group as alice. -/
def bob : passwd := ⟨"bob".toList, 1001, 100, "/home/bob".toList⟩

/-- A child whose output is the given text, read in one piece. -/
def child_printing (text : List Char) : Child :=
  ⟨true, true, true, true, true, true, [ReadResult.data text, ReadResult.eof], fun _ => true⟩

/-- A session of alice on display ":0" switching to bob: no access lists, one
cookie in alice's authority file. -/
def demoWorld : World where
  LINE_MAX := 2048
  PATH_MAX := 4096
  environ := fun n => if n = DISPLAYENV then some ":0".toList else none
  uid := 1000
  gid := 100
  pam_user := some "bob".toList
  getpwuid := fun u => if u = 1000 then some alice else if u = 1001 then some bob else none
  getpwnam := fun n =>
    if n = "alice".toList then some alice else if n = "bob".toList then some bob else none
  fopen := fun _ _ => FopenResult.failed ENOENT
  linebuf := []
  fnmatch := globMatch
  strtol := fun s => (0, s)
  malloc_cookiefile := true
  malloc_t := true
  malloc_xauthority := true
  malloc_d := true
  gethostname := fun _ => some "host".toList
  nlist_proc := child_printing "0100 0002 3a30 cafe\n".toList
  nlist2_proc := child_printing []
  nmerge_proc := child_printing []
  mkstemp := fun _ _ => some "AbCdEf".toList
  pam_set_data_ok := true
  unlink_ok := fun _ => true

/-- The world `demoWorld` with the given text in every file that is opened. -/
def worldWithFile (contents : List Char) : World :=
  { demoWorld with fopen := fun _ _ => FopenResult.opened contents }

/-- The world `demoWorld` without `DISPLAY` and without a target user. -/
def noDisplayWorld : World :=
  { demoWorld with environ := fun _ => none, pam_user := none }

/-- The world `demoWorld` with the invoker root, whose home holds no access list. -/
def rootWorld : World :=
  { demoWorld with
    uid := 0
    gid := 0
    getpwuid := fun u =>
      if u = 0 then some ⟨"root".toList, 0, 0, "/root".toList⟩
      else if u = 1001 then some bob else none
    getpwnam := fun n =>
      if n = "root".toList then some ⟨"root".toList, 0, 0, "/root".toList⟩
      else if n = "bob".toList then some bob else none }

/-- The world `demoWorld` with the given uid for bob. -/
def worldWithTargetUid (u : Nat) : World :=
  { demoWorld with
    getpwnam := fun n =>
      if n = "alice".toList then some alice
      else if n = "bob".toList then some ⟨"bob".toList, u, 100, "/home/bob".toList⟩ else none }

/-- The world `demoWorld` where the pipes of the first listing cannot be made. -/
def failingRunnerWorld : World :=
  { demoWorld with nlist_proc := ⟨false, true, true, true, true, true, [], fun _ => true⟩ }

/-- The world `demoWorld` on the display "localhost:10.0", where both listings
give nothing. -/
def noCookieWorld : World :=
  { demoWorld with
    environ := fun n => if n = DISPLAYENV then some "localhost:10.0".toList else none
    nlist_proc := child_printing [] }

/-- The calls that only look something up: environment, identities, and the
opening of a file for reading. -/
def Event.reads_only : Event → Bool
  | Event.getenv _ => true
  | Event.pam_get_user => true
  | Event.getpwuid _ => true
  | Event.getpwnam _ => true
  | Event.fopen _ _ _ => true
  | _ => false

/-- The calls before the access checks: `DISPLAY`, the target name, the two
identities. -/
def identity_calls (w : World) (user : List Char) : List Event :=
  [Event.getenv DISPLAYENV, Event.pam_get_user, Event.getpwuid w.uid, Event.getpwnam user]

/-- The export check as `pam_sm_open_session` calls it. -/
def export_check (w : World) (cfg : Config) (user : List Char) (rpwd : passwd) : Outcome :=
  check_acl w "export".toList rpwd.pw_name user
    (if w.uid ≠ 0 then PAM_SUCCESS else PAM_PERM_DENIED) cfg.debug

/-- The import check as `pam_sm_open_session` calls it. -/
def import_check (w : World) (cfg : Config) (user : List Char) (rpwd : passwd) : Outcome :=
  check_acl w "import".toList user rpwd.pw_name PAM_SUCCESS cfg.debug

/-- The calls of the subprocess runner. -/
def Event.is_run : Event → Bool
  | Event.run_coprocess _ _ _ _ _ _ _ => true
  | _ => false

/-- The calls of the subprocess runner that list a cookie: `-f <file> nlist <display>`. -/
def Event.is_listing : Event → Bool
  | Event.run_coprocess _ _ _ _ [_, _, op, _] _ _ => op = "nlist".toList
  | _ => false

/-- The output a call of the subprocess runner left in `*output`. -/
def Event.captured : Event → Option (List Char)
  | Event.run_coprocess _ _ _ _ _ _ o => o
  | _ => none

/-- The calls that create or remove a file, or change the environment or the
session data. -/
def Event.changes_state : Event → Bool
  | Event.mkstemp _ _ _ => true
  | Event.fchown _ _ _ => true
  | Event.pam_set_data _ _ _ => true
  | Event.unlink _ _ => true
  | Event.unsetenv _ => true
  | Event.pam_putenv _ => true
  | Event.putenv _ => true
  | _ => false

/-- The authority file of the invoker: the value of `XAUTHORITY`, or else
`.Xauthority` in the home directory. -/
def source_file (w : World) (rpwd : passwd) : List Char :=
  match w.environ XAUTHENV with
  | some v => v
  | none => rpwd.pw_dir ++ "/".toList ++ XAUTHDEF

/-- The first listing call of `pam_sm_open_session`. -/
def first_listing (w : World) (cfg : Config) (display cookiefile : List Char) : RunResult :=
  run_coprocess w.nlist_proc none w.uid w.gid cfg.xauth
    ["-f".toList, cookiefile, "nlist".toList, display]

/-- The second listing call of `pam_sm_open_session`, for the host name `host`. -/
def second_listing (w : World) (cfg : Config) (display cookiefile host : List Char) :
    RunResult :=
  run_coprocess w.nlist2_proc none w.uid w.gid cfg.xauth
    ["-f".toList, cookiefile, "nlist".toList, local_display_name w.LINE_MAX display host]

/-- The merge call of `pam_sm_open_session` into the file `newfile`. -/
def merge_call (w : World) (cfg : Config) (tpwd : passwd) (cookie newfile : List Char) :
    RunResult :=
  run_coprocess w.nmerge_proc (some cookie) tpwd.pw_uid tpwd.pw_gid cfg.xauth
    ["-f".toList, newfile, "nmerge".toList, "-".toList]

/-- The calls that create the target's file `newfile`, store its name and
publish it as `XAUTHORITY`. -/
def publish_calls (w : World) (tpwd : passwd) (newfile : List Char) : List Event :=
  [Event.mkstemp tpwd.pw_uid (tpwd.pw_dir ++ "/".toList ++ XAUTHTMP) (some newfile),
    Event.fchown newfile tpwd.pw_uid tpwd.pw_gid,
    Event.pam_set_data DATANAME newfile true] ++
  (match w.environ XAUTHENV with
    | some _ => [Event.getenv XAUTHENV, Event.unsetenv XAUTHENV]
    | none => [Event.getenv XAUTHENV]) ++
  [Event.pam_putenv (XAUTHENV ++ "=".toList ++ newfile),
    Event.putenv (XAUTHENV ++ "=".toList ++ newfile)]

/-! ## Lemmas on strings and on the scan of an access list -/

theorem cstr_append_nul (data rest : List Char) :
    cstr (data ++ '\x00' :: rest) = cstr data := by
  induction data with
  | nil => simp [cstr]
  | cons d ds ih =>
    unfold cstr at ih ⊢
    by_cases h : d = '\x00'
    · subst h; simp
    · simp [List.takeWhile_cons, h, ih]

theorem cstr_store (buf data : List Char) :
    cstr (store buf (data ++ ['\x00'])) = cstr data := by
  unfold store
  rw [List.append_assoc]
  exact cstr_append_nul data _

theorem cstr_zeroFirst (c : Char) (hc : c ≠ '\x00') (buf : List Char) :
    cstr (zeroFirst c buf) = (cstr buf).takeWhile (fun x => x != c) := by
  induction buf with
  | nil => simp [zeroFirst, cstr]
  | cons b bs ih =>
    unfold cstr at ih ⊢
    by_cases hb : b = c
    · subst hb
      simp [zeroFirst, List.takeWhile_cons, hc]
    · by_cases h0 : b = '\x00'
      · subst h0
        simp [zeroFirst, hb, List.takeWhile_cons]
      · simp [zeroFirst, hb, h0, List.takeWhile_cons, ih]

theorem takeWhile_takeWhile (p q : Char → Bool) (l : List Char) :
    (l.takeWhile p).takeWhile q = l.takeWhile (fun c => p c && q c) := by
  induction l with
  | nil => simp
  | cons a as ih =>
    by_cases hp : p a <;> by_cases hq : q a <;> simp [List.takeWhile_cons, hp, hq, ih]

/-- What `check_acl` hands to `fnmatch` after one `fgets`, whatever the line
buffer held before. -/
theorem tested_string (buf piece : List Char) :
    cstr (zeroFirst '\n' (zeroFirst '\r' (store buf (piece ++ ['\x00'])))) = cut_line piece := by
  rw [cstr_zeroFirst '\n' (by decide), cstr_zeroFirst '\r' (by decide), cstr_store]
  unfold cstr cut_line
  rw [takeWhile_takeWhile, takeWhile_takeWhile]
  congr 1
  funext c
  simp [Bool.and_assoc]

theorem scan_loop_codes (n : Nat) (fm : List Char → List Char → Bool) (u : List Char)
    (fuel : Nat) (buf stream : List Char) :
    scan_loop n fm u fuel buf stream = PAM_SUCCESS ∨
      scan_loop n fm u fuel buf stream = PAM_PERM_DENIED := by
  induction fuel generalizing buf stream with
  | zero => right; rfl
  | succ k ih =>
    unfold scan_loop
    split
    · right; rfl
    · dsimp only
      split
      · left; rfl
      · exact ih _ _

theorem scan_loop_iff (n : Nat) (fm : List Char → List Char → Bool) (u : List Char)
    (fuel : Nat) (buf stream : List Char) :
    scan_loop n fm u fuel buf stream = PAM_SUCCESS ↔
      ∃ p ∈ pieces n fuel stream, fm (cut_line p) u = true := by
  induction fuel generalizing buf stream with
  | zero => simp [scan_loop, pieces, PAM_SUCCESS, PAM_PERM_DENIED]
  | succ k ih =>
    unfold scan_loop pieces
    split
    · rename_i h
      simp [h, PAM_SUCCESS, PAM_PERM_DENIED]
    · rename_i c cs rest h
      simp only [h]
      rw [tested_string]
      by_cases hm : fm (cut_line (c :: cs)) u = true
      · simp [hm]
      · simp only [hm, Bool.false_eq_true, if_false, List.mem_cons, exists_eq_or_imp, false_or]
        exact ih _ _

theorem fgets_append_rest (n : Nat) (s : List Char) :
    (fgets n s).1 ++ (fgets n s).2 = s := by
  induction s generalizing n with
  | nil => simp [fgets]
  | cons c cs ih =>
    match n with
    | 0 => simp [fgets]
    | 1 => simp [fgets]
    | m + 2 =>
      unfold fgets
      by_cases h : c = '\n'
      · simp [h]
      · simp [h, ih]

theorem fgets_ne_nil (n : Nat) (hn : 2 ≤ n) (c : Char) (cs : List Char) :
    (fgets n (c :: cs)).1 ≠ [] := by
  match n, hn with
  | m + 2, _ =>
    unfold fgets
    by_cases h : c = '\n' <;> simp [h]

theorem fgets_rest_length (n : Nat) (hn : 2 ≤ n) (c : Char) (cs : List Char) :
    (fgets n (c :: cs)).2.length < (c :: cs).length := by
  have h1 := fgets_append_rest n (c :: cs)
  have h2 := fgets_ne_nil n hn c cs
  have h3 : ((fgets n (c :: cs)).1 ++ (fgets n (c :: cs)).2).length = (c :: cs).length := by
    rw [h1]
  rw [List.length_append] at h3
  have h4 : 0 < (fgets n (c :: cs)).1.length := List.length_pos.mpr h2
  omega

/-- The pieces read with enough fuel make up the whole stream. -/
theorem pieces_flatten (n : Nat) (hn : 2 ≤ n) (fuel : Nat) (s : List Char)
    (hf : s.length < fuel) : (pieces n fuel s).flatten = s := by
  induction fuel generalizing s with
  | zero => omega
  | succ k ih =>
    unfold pieces
    match s with
    | [] => simp [fgets]
    | c :: cs =>
      have h1 := fgets_append_rest n (c :: cs)
      have h2 := fgets_ne_nil n hn c cs
      have h3 := fgets_rest_length n hn c cs
      split
      · rename_i h
        rw [h] at h2
        exact absurd rfl h2
      · rename_i a as rest h
        rw [h] at h1 h3
        simp only [List.flatten_cons]
        rw [ih rest (by simp only [List.length_cons] at h3 hf; omega)]
        exact h1

theorem pieces_fuel_eq (n : Nat) (hn : 2 ≤ n) (f1 f2 : Nat) (s : List Char)
    (h1 : s.length < f1) (h2 : s.length < f2) : pieces n f1 s = pieces n f2 s := by
  induction f1 generalizing f2 s with
  | zero => omega
  | succ k ih =>
    match f2, h2 with
    | j + 1, h2 =>
      match s with
      | [] => simp [pieces, fgets]
      | c :: cs =>
        have h3 := fgets_rest_length n hn c cs
        simp only [List.length_cons] at h3 h1 h2
        unfold pieces
        split
        · rfl
        · rename_i a as rest h
          rw [h] at h3
          simp only at h3
          rw [ih j rest (by omega) (by omega)]

/-- More fuel than needed does not change the pieces. -/
theorem pieces_fuel (n : Nat) (hn : 2 ≤ n) (fuel : Nat) (s : List Char)
    (hf : s.length < fuel) : pieces n fuel s = pieces n (s.length + 1) s :=
  pieces_fuel_eq n hn fuel (s.length + 1) s hf (by omega)

theorem fgets_cons (m : Nat) (c : Char) (cs : List Char) :
    fgets (m + 2) (c :: cs) =
      if c = '\n' then ([c], cs) else (c :: (fgets (m + 1) cs).1, (fgets (m + 1) cs).2) := by
  simp [fgets]

/-- A piece that ends in a newline or fills the buffer is read the same
whatever is appended to the stream. -/
theorem fgets_append (n : Nat) (s t : List Char)
    (h : (fgets n s).1.getLast? = some '\n' ∨ (fgets n s).1.length + 1 = n) :
    fgets n (s ++ t) = ((fgets n s).1, (fgets n s).2 ++ t) := by
  induction s generalizing n with
  | nil =>
    simp only [fgets, List.getLast?_nil, List.length_nil] at h
    rcases h with h | h
    · exact absurd h (by simp)
    · subst h
      cases t <;> simp [fgets]
  | cons c cs ih =>
    match n with
    | 0 =>
      simp [fgets] at h
    | 1 => simp [fgets]
    | m + 2 =>
      simp only [List.cons_append, fgets_cons] at h ⊢
      by_cases hc : c = '\n'
      · simp [hc]
      · simp only [hc, if_false] at h ⊢
        have h2 : (fgets (m + 1) cs).1.getLast? = some '\n' ∨
            (fgets (m + 1) cs).1.length + 1 = m + 1 := by
          rcases h with h | h
          · left
            cases hp : (fgets (m + 1) cs).1 with
            | nil =>
              rw [hp] at h
              simp at h
              exact absurd h hc
            | cons a as =>
              rw [hp] at h
              rw [List.getLast?_cons_cons] at h
              exact h
          · right
            simp only [List.length_cons] at h
            omega
        rw [ih (m + 1) h2]

/-- How a read can end: at a newline, with the buffer full, or at the end of
the stream. -/
theorem fgets_ends (n : Nat) (s : List Char) :
    (fgets n s).1.getLast? = some '\n' ∨ (fgets n s).1.length + 1 = n ∨ (fgets n s).2 = [] ∨
      n = 0 := by
  induction s generalizing n with
  | nil => simp [fgets]
  | cons c cs ih =>
    match n with
    | 0 => simp
    | 1 => simp [fgets]
    | m + 2 =>
      rw [fgets_cons]
      by_cases hc : c = '\n'
      · simp [hc]
      · simp only [hc, if_false]
        rcases ih (m + 1) with h | h | h | h
        · left
          cases hp : (fgets (m + 1) cs).1 with
          | nil => rw [hp] at h; simp at h
          | cons a as =>
            rw [hp] at h
            rw [List.getLast?_cons_cons]
            exact h
        · right; left
          simp only [List.length_cons]
          omega
        · right; right; left
          exact h
        · omega

/-- Complete lines are read the same whatever follows them in the file. -/
theorem fgets_pieces_append (n : Nat) (hn : 2 ≤ n) (k : Nat) (s t : List Char)
    (hk : s.length ≤ k) (hs : s = [] ∨ s.getLast? = some '\n') :
    fgets_pieces n (s ++ t) = fgets_pieces n s ++ fgets_pieces n t := by
  induction k generalizing s with
  | zero =>
    have : s = [] := List.length_eq_zero.mp (by omega)
    subst this
    simp [fgets_pieces, pieces, fgets]
  | succ k ih =>
    match s, hs with
    | [], _ => simp [fgets_pieces, pieces, fgets]
    | c :: cs, hs =>
      have hlast : (c :: cs).getLast? = some '\n' := by
        rcases hs with h | h
        · exact absurd h (by simp)
        · exact h
      have h1 := fgets_append_rest n (c :: cs)
      have h2 := fgets_ne_nil n hn c cs
      have h3 := fgets_rest_length n hn c cs
      have hend : (fgets n (c :: cs)).1.getLast? = some '\n' ∨
          (fgets n (c :: cs)).1.length + 1 = n := by
        rcases fgets_ends n (c :: cs) with h | h | h | h
        · left; exact h
        · right; exact h
        · left
          rw [h, List.append_nil] at h1
          rw [h1]
          exact hlast
        · omega
      have happ := fgets_append n (c :: cs) t hend
      have hrest : (fgets n (c :: cs)).2 = [] ∨ (fgets n (c :: cs)).2.getLast? = some '\n' := by
        by_cases hr : (fgets n (c :: cs)).2 = []
        · left; exact hr
        · right
          rw [← List.getLast?_append_of_ne_nil (fgets n (c :: cs)).1 hr, h1]
          exact hlast
      have hih := ih (fgets n (c :: cs)).2 (by simp only [List.length_cons] at h3 hk; omega) hrest
      cases hp : (fgets n (c :: cs)).1 with
      | nil => exact absurd hp h2
      | cons a as =>
        have e1 : fgets n (c :: cs) = (a :: as, (fgets n (c :: cs)).2) := by
          rw [← hp]
        have e2 : fgets n (c :: cs ++ t) = (a :: as, (fgets n (c :: cs)).2 ++ t) := by
          rw [← hp]; exact happ
        have hl : ((fgets n (c :: cs)).2 ++ t).length < (c :: cs ++ t).length := by
          simp only [List.length_append, List.length_cons] at h3 ⊢
          omega
        unfold fgets_pieces at hih ⊢
        have f1 : pieces n ((c :: cs ++ t).length + 1) (c :: cs ++ t) =
            (a :: as) :: pieces n (c :: cs ++ t).length ((fgets n (c :: cs)).2 ++ t) := by
          conv => lhs; unfold pieces
          simp only [e2]
        have f2 : pieces n ((c :: cs).length + 1) (c :: cs) =
            (a :: as) :: pieces n (c :: cs).length (fgets n (c :: cs)).2 := by
          conv => lhs; unfold pieces
          rw [e1]
        rw [f1, f2, pieces_fuel n hn _ _ hl, pieces_fuel n hn _ _ h3, hih]
        rfl

/-! ## check_acl -/

/-- With more fuel than the stream has characters the scan does not depend on
the fuel: the loop ends on a match or at the end of the file. -/
theorem scan_loop_fuel (n : Nat) (hn : 2 ≤ n) (fm : List Char → List Char → Bool)
    (u : List Char) (f1 f2 : Nat) (buf stream : List Char)
    (h1 : stream.length < f1) (h2 : stream.length < f2) :
    scan_loop n fm u f1 buf stream = scan_loop n fm u f2 buf stream := by
  have hp := pieces_fuel_eq n hn f1 f2 stream h1 h2
  have i1 := scan_loop_iff n fm u f1 buf stream
  have i2 := scan_loop_iff n fm u f2 buf stream
  rw [hp] at i1
  by_cases hs : scan_loop n fm u f2 buf stream = PAM_SUCCESS
  · rw [hs]
    exact i1.mpr (i2.mp hs)
  · have hs1 : ¬ scan_loop n fm u f1 buf stream = PAM_SUCCESS := fun h => hs (i2.mpr (i1.mp h))
    rcases scan_loop_codes n fm u f1 buf stream with a | a
    · exact absurd a hs1
    · rcases scan_loop_codes n fm u f2 buf stream with b | b
      · exact absurd b hs
      · rw [a, b]

theorem fgets_length (n : Nat) (s : List Char) : (fgets n s).1.length ≤ n - 1 := by
  induction s generalizing n with
  | nil => simp [fgets]
  | cons c cs ih =>
    match n with
    | 0 => simp [fgets]
    | 1 => simp [fgets]
    | m + 2 =>
      rw [fgets_cons]
      by_cases hc : c = '\n'
      · simp [hc]
      · simp only [hc, if_false, List.length_cons]
        have := ih (m + 1)
        omega

theorem fgets_newline_last (n : Nat) (s : List Char) : '\n' ∉ (fgets n s).1.dropLast := by
  induction s generalizing n with
  | nil => simp [fgets]
  | cons c cs ih =>
    match n with
    | 0 => simp [fgets]
    | 1 => simp [fgets]
    | m + 2 =>
      rw [fgets_cons]
      by_cases hc : c = '\n'
      · simp [hc]
      · simp only [hc, if_false]
        cases hp : (fgets (m + 1) cs).1 with
        | nil => simp
        | cons a as =>
          have := ih (m + 1)
          rw [hp] at this
          rw [List.dropLast_cons₂]
          intro hmem
          rcases List.mem_cons.mp hmem with h | h
          · exact hc h.symm
          · exact this h

/-- Every piece read holds at least one and at most `n - 1` characters, and a
newline only as its last one. -/
theorem pieces_shape (n fuel : Nat) (s : List Char) :
    ∀ p ∈ pieces n fuel s, p ≠ [] ∧ p.length ≤ n - 1 ∧ '\n' ∉ p.dropLast := by
  induction fuel generalizing s with
  | zero => simp [pieces]
  | succ k ih =>
    unfold pieces
    split
    · simp
    · rename_i c cs rest h
      intro p hp
      rcases List.mem_cons.mp hp with hp | hp
      · subst hp
        have h1 := fgets_length n s
        have h2 := fgets_newline_last n s
        rw [h] at h1 h2
        exact ⟨by simp, h1, h2⟩
      · exact ih rest p hp

/-- The calls of `check_acl` are the lookup of the subject and, when the
subject resolves and the path fits in the buffer, one `fopen`. -/
theorem check_acl_fopen_mem (w : World) (sense this_user other_user : List Char)
    (noent_code : Int) (debug : Bool) (fsuid : Nat) (path : List Char) (res : FopenResult) :
    Event.fopen fsuid path res ∈ (check_acl w sense this_user other_user noent_code debug).trace ↔
      ∃ pwd, w.getpwnam this_user = some pwd ∧ fsuid = pwd.pw_uid ∧
        path = pwd.pw_dir ++ "/.xauth/".toList ++ sense ∧ path.length < w.PATH_MAX ∧
        w.fopen fsuid path = res := by
  unfold check_acl
  cases hpw : w.getpwnam this_user with
  | none => simp
  | some pwd =>
    simp only []
    by_cases hlen : w.PATH_MAX ≤ (pwd.pw_dir ++ "/.xauth/".toList ++ sense).length
    · simp only [hlen, if_true, List.mem_singleton, Option.some.injEq, exists_eq_left', false_iff]
      simp only [reduceCtorEq, false_iff]
      rintro ⟨_, hp, hl, _⟩
      rw [hp] at hl
      omega
    · simp only [hlen, if_false]
      cases hf : w.fopen pwd.pw_uid (pwd.pw_dir ++ "/.xauth/".toList ++ sense) with
      | opened contents =>
        simp only [List.mem_cons, reduceCtorEq, Event.fopen.injEq, List.mem_singleton,
          List.not_mem_nil, or_false, false_or, Option.some.injEq, exists_eq_left']
        constructor
        · rintro ⟨h1, h2, h3⟩
          subst h1 h2 h3
          exact ⟨rfl, rfl, by omega, hf⟩
        · rintro ⟨h1, h2, _, h4⟩
          subst h1 h2
          rw [hf] at h4
          exact ⟨rfl, rfl, h4.symm⟩
      | failed errno =>
        simp only [List.mem_cons, reduceCtorEq, Event.fopen.injEq, List.mem_singleton,
          List.not_mem_nil, or_false, false_or, Option.some.injEq, exists_eq_left']
        constructor
        · rintro ⟨h1, h2, h3⟩
          subst h1 h2 h3
          exact ⟨rfl, rfl, by omega, hf⟩
        · rintro ⟨h1, h2, _, h4⟩
          subst h1 h2
          rw [hf] at h4
          exact ⟨rfl, rfl, h4.symm⟩

/-- The result of `check_acl` when its `fopen` gives a stream. -/
theorem check_acl_result_of_opened (w : World) (sense this_user other_user : List Char)
    (noent_code : Int) (debug : Bool) (fsuid : Nat) (path contents : List Char)
    (h : Event.fopen fsuid path (FopenResult.opened contents) ∈
      (check_acl w sense this_user other_user noent_code debug).trace) :
    (check_acl w sense this_user other_user noent_code debug).result =
      scan_loop w.LINE_MAX w.fnmatch other_user (contents.length + 1) w.linebuf contents := by
  obtain ⟨pwd, hpw, h1, h2, h3, h4⟩ := (check_acl_fopen_mem _ _ _ _ _ _ _ _ _).mp h
  subst h1 h2
  unfold check_acl
  simp only [hpw]
  rw [if_neg (by omega)]
  simp only [h4]

/-- The result of `check_acl` when its `fopen` fails. -/
theorem check_acl_result_of_failed (w : World) (sense this_user other_user : List Char)
    (noent_code : Int) (debug : Bool) (fsuid : Nat) (path : List Char) (errno : Int)
    (h : Event.fopen fsuid path (FopenResult.failed errno) ∈
      (check_acl w sense this_user other_user noent_code debug).trace) :
    (check_acl w sense this_user other_user noent_code debug).result =
      if errno = ENOENT then noent_code else PAM_PERM_DENIED := by
  obtain ⟨pwd, hpw, h1, h2, h3, h4⟩ := (check_acl_fopen_mem _ _ _ _ _ _ _ _ _).mp h
  subst h1 h2
  unfold check_acl
  simp only [hpw]
  rw [if_neg (by omega)]
  simp only [h4]

/-- C1, as amended.  When `check_acl` opens the allow-list file, it returns
Permit (`PAM_SUCCESS`) if and only if one of the pieces `fgets` reads from the
file (each line with its newline, a line that does not fit in `LINE_MAX - 1`
characters coming in several pieces), cut at its first NUL, carriage return or
newline, matches the object user name; otherwise it returns Deny
(`PAM_PERM_DENIED`).  The pieces make up the whole file, each holds at most
`LINE_MAX - 1` characters and a newline only at its end, and the loop ends on
a match or at the end of the file.  The caller's default plays no part, an
empty file gives Deny, and complete lines among which one matches give Permit
whatever follows them in the file. -/
theorem check_acl_scans_pieces (w : World) (sense this_user other_user : List Char)
    (noent_code : Int) (debug : Bool) (fsuid : Nat) (path contents : List Char)
    (hopen : Event.fopen fsuid path (FopenResult.opened contents) ∈
      (check_acl w sense this_user other_user noent_code debug).trace)
    (hline : 2 ≤ w.LINE_MAX) :
    ((check_acl w sense this_user other_user noent_code debug).result = PAM_SUCCESS ↔
        ∃ p ∈ fgets_pieces w.LINE_MAX contents, w.fnmatch (cut_line p) other_user = true) ∧
      ((check_acl w sense this_user other_user noent_code debug).result ≠ PAM_SUCCESS →
        (check_acl w sense this_user other_user noent_code debug).result = PAM_PERM_DENIED) ∧
      ((fgets_pieces w.LINE_MAX contents).flatten = contents ∧
        ∀ p ∈ fgets_pieces w.LINE_MAX contents,
          p ≠ [] ∧ p.length ≤ w.LINE_MAX - 1 ∧ '\n' ∉ p.dropLast) ∧
      (∀ fuel, contents.length < fuel →
        scan_loop w.LINE_MAX w.fnmatch other_user fuel w.linebuf contents =
          (check_acl w sense this_user other_user noent_code debug).result) ∧
      (∀ other_code : Int,
        (check_acl w sense this_user other_user other_code debug).result =
          (check_acl w sense this_user other_user noent_code debug).result) ∧
      (contents = [] →
        (check_acl w sense this_user other_user noent_code debug).result = PAM_PERM_DENIED) ∧
      (∀ pre post : List Char, contents = pre ++ post →
        (pre = [] ∨ pre.getLast? = some '\n') →
        (∃ p ∈ fgets_pieces w.LINE_MAX pre, w.fnmatch (cut_line p) other_user = true) →
        (check_acl w sense this_user other_user noent_code debug).result = PAM_SUCCESS) := by
  have hres := check_acl_result_of_opened w sense this_user other_user noent_code debug
    fsuid path contents hopen
  have hiff := scan_loop_iff w.LINE_MAX w.fnmatch other_user (contents.length + 1) w.linebuf
    contents
  refine ⟨?_, ?_, ?_, ?_, ?_, ?_, ?_⟩
  · rw [hres]
    exact hiff
  · intro hne
    rw [hres] at hne ⊢
    rcases scan_loop_codes w.LINE_MAX w.fnmatch other_user (contents.length + 1) w.linebuf
      contents with h | h
    · exact absurd h hne
    · exact h
  · exact ⟨pieces_flatten w.LINE_MAX hline _ contents (by omega), pieces_shape _ _ _⟩
  · intro fuel hfuel
    rw [hres]
    exact scan_loop_fuel w.LINE_MAX hline _ _ _ _ _ _ hfuel (by omega)
  · intro other_code
    have hopen2 : Event.fopen fsuid path (FopenResult.opened contents) ∈
        (check_acl w sense this_user other_user other_code debug).trace :=
      (check_acl_fopen_mem _ _ _ _ _ _ _ _ _).mpr
        ((check_acl_fopen_mem _ _ _ _ _ _ _ _ _).mp hopen)
    rw [hres, check_acl_result_of_opened w sense this_user other_user other_code debug
      fsuid path contents hopen2]
  · intro hc
    subst hc
    rw [hres]
    simp [scan_loop, fgets]
  · intro pre post hc hpre hex
    rw [hres]
    apply hiff.mpr
    obtain ⟨p, hp, hm⟩ := hex
    refine ⟨p, ?_, hm⟩
    show p ∈ fgets_pieces w.LINE_MAX contents
    rw [hc, fgets_pieces_append w.LINE_MAX hline pre.length pre post (Nat.le_refl _) hpre]
    exact List.mem_append_left _ hp

theorem fgets_replicate_a (k : Nat) (rest : List Char) :
    fgets (k + 1) (List.replicate k 'a' ++ rest) = (List.replicate k 'a', rest) := by
  induction k with
  | zero => cases rest <;> simp [fgets]
  | succ k ih =>
    rw [List.replicate_succ, List.cons_append, fgets_cons, ih]
    simp

theorem lines_of_replicate_a (k : Nat) :
    lines_of (List.replicate k 'a' ++ "bob\n".toList) =
      [List.replicate k 'a' ++ "bob".toList] := by
  induction k with
  | zero => decide
  | succ k ih =>
    rw [List.replicate_succ, List.cons_append, lines_of, ih]
    simp

theorem pieces_succ (n fuel : Nat) (s : List Char) :
    pieces n (fuel + 1) s =
      match fgets n s with
      | ([], _) => []
      | (c :: cs, rest) => (c :: cs) :: pieces n fuel rest := rfl

/-- A line of `k + 4` letters "a" followed by "bob", read with a buffer of
`k + 5` bytes: "bob" and the newline come as a piece of their own. -/
theorem pieces_long_line (k fuel : Nat) :
    "bob\n".toList ∈
      pieces (k + 5) (fuel + 2) (List.replicate (k + 4) 'a' ++ "bob\n".toList) := by
  have h1 : fgets (k + 5) (List.replicate (k + 4) 'a' ++ "bob\n".toList) =
      ('a' :: List.replicate (k + 3) 'a', "bob\n".toList) := by
    rw [fgets_replicate_a (k + 4), List.replicate_succ]
  have h2 : fgets (k + 5) "bob\n".toList = ("bob\n".toList, []) := by
    simp [fgets]
  rw [pieces_succ, h1]
  simp only []
  apply List.mem_cons_of_mem
  rw [pieces_succ, h2]
  exact List.mem_cons_self _ _

theorem spec_long_line (k : Nat) :
    spec_permits globMatch (List.replicate (k + 1) 'a' ++ "bob\n".toList) "bob".toList =
      false := by
  unfold spec_permits
  rw [lines_of_replicate_a]
  simp [strip_eol, List.replicate_succ, globMatch]

/-- C1, files on which the claim as worded fails.  The only line of the first
file is "bob", a carriage return and "x": with its trailing newline stripped it
does not match "bob", yet `check_acl` cuts it at the carriage return and
returns Permit for "bob"; and it returns Deny for "x", which is never tested.
The only line of the second file is 2047 letters "a" followed by "bob": it does
not match "bob", yet with `LINE_MAX` 2048 `fgets` reads "bob" as a piece of its
own and `check_acl` returns Permit. -/
theorem check_acl_tests_pieces_not_lines :
    Event.fopen 1000 "/home/alice/.xauth/export".toList
        (FopenResult.opened "bob\rx\n".toList) ∈
      (check_acl (worldWithFile "bob\rx\n".toList) "export".toList "alice".toList
        "bob".toList PAM_PERM_DENIED false).trace ∧
    (check_acl (worldWithFile "bob\rx\n".toList) "export".toList "alice".toList
        "bob".toList PAM_PERM_DENIED false).result = PAM_SUCCESS ∧
    spec_permits globMatch "bob\rx\n".toList "bob".toList = false ∧
    (check_acl (worldWithFile "bob\rx\n".toList) "export".toList "alice".toList
        "x".toList PAM_PERM_DENIED false).result = PAM_PERM_DENIED ∧
    (check_acl (worldWithFile (List.replicate 2047 'a' ++ "bob\n".toList)) "export".toList
        "alice".toList "bob".toList PAM_PERM_DENIED false).result = PAM_SUCCESS ∧
    spec_permits globMatch (List.replicate 2047 'a' ++ "bob\n".toList) "bob".toList = false := by
  have hmem : Event.fopen 1000 "/home/alice/.xauth/export".toList
      (FopenResult.opened (List.replicate 2047 'a' ++ "bob\n".toList)) ∈
      (check_acl (worldWithFile (List.replicate 2047 'a' ++ "bob\n".toList)) "export".toList
        "alice".toList "bob".toList PAM_PERM_DENIED false).trace :=
    (check_acl_fopen_mem _ _ _ _ _ _ _ _ _).mpr ⟨alice, rfl, rfl, rfl, by decide, rfl⟩
  refine ⟨by decide, by decide, by decide, by decide, ?_, spec_long_line 2046⟩
  rw [check_acl_result_of_opened _ _ _ _ _ _ _ _ _ hmem]
  apply (scan_loop_iff _ _ _ _ _ _).mpr
  refine ⟨"bob\n".toList, ?_, by decide⟩
  rw [List.length_append, List.length_replicate]
  exact pieces_long_line 2043 2050

/-- Witness of C1 as amended: the file holds a line "root" and a line "b*";
"bob" is permitted. -/
theorem check_acl_scans_pieces_witness :
    (check_acl (worldWithFile "root\nb*\n".toList) "export".toList "alice".toList
        "bob".toList PAM_PERM_DENIED false).result = PAM_SUCCESS :=
  (check_acl_scans_pieces (worldWithFile "root\nb*\n".toList) "export".toList "alice".toList
    "bob".toList PAM_PERM_DENIED false 1000 "/home/alice/.xauth/export".toList
    "root\nb*\n".toList (by decide) (by decide)).2.2.2.2.2.2 "root\nb*\n".toList [] (by decide)
    (by decide) ⟨"b*\n".toList, by decide, by decide⟩

/-- C2.  When the `fopen` of `check_acl` fails, on the file `.xauth/<sense>` in
the home directory of the subject, the result is the caller's default
`noent_code`, unchanged, if the error is `ENOENT`, and Deny
(`PAM_PERM_DENIED`) for every other error, whatever the default.  (The file is
opened when the subject resolves and the name of the file fits in `PATH_MAX`
bytes; otherwise `check_acl` returns `PAM_SESSION_ERR` without an open.) -/
theorem check_acl_open_error (w : World) (sense this_user other_user : List Char)
    (noent_code : Int) (debug : Bool) (fsuid : Nat) (path : List Char) (errno : Int)
    (hfail : Event.fopen fsuid path (FopenResult.failed errno) ∈
      (check_acl w sense this_user other_user noent_code debug).trace) :
    (∃ pwd, w.getpwnam this_user = some pwd ∧ fsuid = pwd.pw_uid ∧
        path = pwd.pw_dir ++ "/.xauth/".toList ++ sense ∧ path.length < w.PATH_MAX ∧
        w.fopen fsuid path = FopenResult.failed errno) ∧
      (errno = ENOENT →
        (check_acl w sense this_user other_user noent_code debug).result = noent_code) ∧
      (errno ≠ ENOENT →
        (check_acl w sense this_user other_user noent_code debug).result = PAM_PERM_DENIED) := by
  have hres := check_acl_result_of_failed w sense this_user other_user noent_code debug
    fsuid path errno hfail
  obtain ⟨pwd, hpw, h1, h2, h3, h4⟩ := (check_acl_fopen_mem _ _ _ _ _ _ _ _ _).mp hfail
  refine ⟨⟨pwd, hpw, h1, h2, h3, h4⟩, ?_, ?_⟩
  · intro he
    rw [hres, if_pos he]
  · intro he
    rw [hres, if_neg he]

/-- Witness of C2: alice has no export file and the default is Permit. -/
theorem check_acl_open_error_witness :
    (check_acl demoWorld "export".toList "alice".toList "bob".toList PAM_SUCCESS false).result
      = PAM_SUCCESS :=
  (check_acl_open_error demoWorld "export".toList "alice".toList "bob".toList PAM_SUCCESS false
    1000 "/home/alice/.xauth/export".toList ENOENT (by decide)).2.1 rfl

/-! ## pam_sm_open_session: up to the access checks -/

theorem check_acl_reads_only (w : World) (sense this_user other_user : List Char)
    (noent_code : Int) (debug : Bool) :
    ∀ e ∈ (check_acl w sense this_user other_user noent_code debug).trace,
      e.reads_only = true := by
  unfold check_acl
  cases w.getpwnam this_user with
  | none => simp [Event.reads_only]
  | some pwd =>
    simp only []
    split
    · simp [Event.reads_only]
    · split <;> simp [Event.reads_only]

theorem open_session_of_identities (w : World) (argv : List (List Char))
    (display user : List Char) (rpwd tpwd : passwd)
    (hd : w.environ DISPLAYENV = some display) (hu : w.pam_user = some user)
    (hr : w.getpwuid w.uid = some rpwd) (ht : w.getpwnam user = some tpwd) :
    pam_sm_open_session w argv =
      if tpwd.pw_uid ≠ 0 ∧ tpwd.pw_uid ≠ (parse_args w.strtol argv).targetuser ∧
          tpwd.pw_uid ≤ (parse_args w.strtol argv).systemuser then
        ⟨PAM_SESSION_ERR, identity_calls w user⟩
      else
        (check_both w (parse_args w.strtol argv) display user rpwd tpwd).after
          (identity_calls w user) := by
  unfold pam_sm_open_session identity_calls
  simp only [hd, hu, hr, ht]

theorem check_both_eq (w : World) (cfg : Config) (display user : List Char)
    (rpwd tpwd : passwd) :
    check_both w cfg display user rpwd tpwd =
      if (export_check w cfg user rpwd).result ≠ PAM_SUCCESS then
        ⟨PAM_SESSION_ERR, (export_check w cfg user rpwd).trace⟩
      else if (import_check w cfg user rpwd).result ≠ PAM_SUCCESS then
        ⟨PAM_SESSION_ERR, (export_check w cfg user rpwd).trace ++
          (import_check w cfg user rpwd).trace⟩
      else
        (locate_cookiefile w cfg display rpwd tpwd).after
          ((export_check w cfg user rpwd).trace ++ (import_check w cfg user rpwd).trace) := by
  rfl

theorem locate_cookiefile_starts (w : World) (cfg : Config) (display : List Char)
    (rpwd tpwd : passwd) :
    Event.getenv XAUTHENV ∈ (locate_cookiefile w cfg display rpwd tpwd).trace := by
  unfold locate_cookiefile
  cases w.environ XAUTHENV with
  | none =>
    simp only []
    split <;> simp [Outcome.after]
  | some v => simp [Outcome.after]

theorem getenv_xauth_not_in_check_acl (w : World) (sense this_user other_user : List Char)
    (noent_code : Int) (debug : Bool) :
    Event.getenv XAUTHENV ∉ (check_acl w sense this_user other_user noent_code debug).trace := by
  unfold check_acl
  cases w.getpwnam this_user with
  | none => simp
  | some pwd =>
    simp only []
    split
    · simp
    · split <;> simp

theorem no_display_outcome (w : World) (argv : List (List Char))
    (h : w.environ DISPLAYENV = none) :
    pam_sm_open_session w argv = ⟨PAM_SUCCESS, [Event.getenv DISPLAYENV]⟩ := by
  unfold pam_sm_open_session
  simp only [h]

/-- C7.  When `DISPLAY` is not set, `pam_sm_open_session` returns
`PAM_SUCCESS` and its only call is the `getenv` of `DISPLAY`: no identity is
looked up, no file is opened or created, no process is run, the environment
and the session data are left alone; this for every argument list and every
target user, resolving or not. -/
theorem open_session_without_display (w : World) (argv : List (List Char))
    (h : w.environ DISPLAYENV = none) :
    pam_sm_open_session w argv = ⟨PAM_SUCCESS, [Event.getenv DISPLAYENV]⟩ := by
  unfold pam_sm_open_session
  simp only [h]

/-- Witness of C7: no `DISPLAY`, and a target user that cannot be determined. -/
theorem open_session_without_display_witness :
    pam_sm_open_session noDisplayWorld ["debug".toList] =
      ⟨PAM_SUCCESS, [Event.getenv DISPLAYENV]⟩ :=
  open_session_without_display noDisplayWorld ["debug".toList] rfl

/-- C4.  With `DISPLAY` set and both identities resolved, for every argument
list: a target uid that is not 0, differs from `targetuser` and is at most
`systemuser` gives `PAM_SESSION_ERR` with no call after the identity lookups
(no access check, no process, no file); any other target uid lets the call go
on to the export check.  Without arguments `targetuser` is 0 and `systemuser`
is 499, so that target uids 50 and 499 are refused and 500 is not. -/
theorem open_session_system_account (w : World) (argv : List (List Char))
    (display user : List Char) (rpwd tpwd : passwd)
    (hd : w.environ DISPLAYENV = some display) (hu : w.pam_user = some user)
    (hr : w.getpwuid w.uid = some rpwd) (ht : w.getpwnam user = some tpwd) :
    (tpwd.pw_uid ≠ 0 ∧ tpwd.pw_uid ≠ (parse_args w.strtol argv).targetuser ∧
        tpwd.pw_uid ≤ (parse_args w.strtol argv).systemuser →
      pam_sm_open_session w argv = ⟨PAM_SESSION_ERR, identity_calls w user⟩) ∧
    (tpwd.pw_uid = 0 ∨ tpwd.pw_uid = (parse_args w.strtol argv).targetuser ∨
        (parse_args w.strtol argv).systemuser < tpwd.pw_uid →
      ∃ rest, (pam_sm_open_session w argv).trace =
        identity_calls w user ++
          (export_check w (parse_args w.strtol argv) user rpwd).trace ++ rest) ∧
    ((parse_args w.strtol []).targetuser = 0 ∧ (parse_args w.strtol []).systemuser = 499) ∧
    (tpwd.pw_uid = 50 ∨ tpwd.pw_uid = 499 →
      pam_sm_open_session w [] = ⟨PAM_SESSION_ERR, identity_calls w user⟩) ∧
    (tpwd.pw_uid = 500 →
      ∃ rest, (pam_sm_open_session w []).trace =
        identity_calls w user ++ (export_check w (parse_args w.strtol []) user rpwd).trace ++
          rest) := by
  have key : ∀ av : List (List Char),
      ¬ (tpwd.pw_uid ≠ 0 ∧ tpwd.pw_uid ≠ (parse_args w.strtol av).targetuser ∧
        tpwd.pw_uid ≤ (parse_args w.strtol av).systemuser) →
      ∃ rest, (pam_sm_open_session w av).trace =
        identity_calls w user ++ (export_check w (parse_args w.strtol av) user rpwd).trace ++
          rest := by
    intro av hn
    rw [open_session_of_identities w av display user rpwd tpwd hd hu hr ht, if_neg hn,
      check_both_eq]
    split
    · exact ⟨[], by simp [Outcome.after]⟩
    · split
      · exact ⟨_, by simp only [Outcome.after, List.append_assoc]; rfl⟩
      · exact ⟨_, by simp only [Outcome.after, List.append_assoc]; rfl⟩
  have hdef : (parse_args w.strtol []).targetuser = 0 ∧
      (parse_args w.strtol []).systemuser = 499 := ⟨rfl, rfl⟩
  refine ⟨?_, ?_, hdef, ?_, ?_⟩
  · intro h
    rw [open_session_of_identities w argv display user rpwd tpwd hd hu hr ht, if_pos h]
  · intro h
    apply key
    omega
  · intro h
    rw [open_session_of_identities w [] display user rpwd tpwd hd hu hr ht, if_pos]
    rw [hdef.1, hdef.2]
    omega
  · intro h
    apply key
    rw [hdef.1, hdef.2]
    omega

/-- Witness of C4: bob with uid 50 is refused when no argument is given. -/
theorem open_session_system_account_witness :
    pam_sm_open_session (worldWithTargetUid 50) [] =
      ⟨PAM_SESSION_ERR, identity_calls (worldWithTargetUid 50) "bob".toList⟩ :=
  (open_session_system_account (worldWithTargetUid 50) [] ":0".toList "bob".toList alice
    ⟨"bob".toList, 50, 100, "/home/bob".toList⟩ rfl rfl rfl rfl).2.2.2.1 (Or.inl rfl)

theorem identity_calls_reads_only (w : World) (user : List Char) :
    ∀ e ∈ identity_calls w user, e.reads_only = true := by
  simp [identity_calls, Event.reads_only]

theorem getenv_xauth_not_in_identity_calls (w : World) (user : List Char) :
    Event.getenv XAUTHENV ∉ identity_calls w user := by
  have h : XAUTHENV ≠ DISPLAYENV := by decide
  simp [identity_calls, h]

/-- The three ways `pam_sm_open_session` can leave the access checks. -/
theorem open_session_of_checks (w : World) (argv : List (List Char))
    (display user : List Char) (rpwd tpwd : passwd)
    (hd : w.environ DISPLAYENV = some display) (hu : w.pam_user = some user)
    (hr : w.getpwuid w.uid = some rpwd) (ht : w.getpwnam user = some tpwd)
    (hsys : ¬ (tpwd.pw_uid ≠ 0 ∧ tpwd.pw_uid ≠ (parse_args w.strtol argv).targetuser ∧
      tpwd.pw_uid ≤ (parse_args w.strtol argv).systemuser)) :
    pam_sm_open_session w argv =
      if (export_check w (parse_args w.strtol argv) user rpwd).result ≠ PAM_SUCCESS then
        ⟨PAM_SESSION_ERR, identity_calls w user ++
          (export_check w (parse_args w.strtol argv) user rpwd).trace⟩
      else if (import_check w (parse_args w.strtol argv) user rpwd).result ≠ PAM_SUCCESS then
        ⟨PAM_SESSION_ERR, identity_calls w user ++
          ((export_check w (parse_args w.strtol argv) user rpwd).trace ++
            (import_check w (parse_args w.strtol argv) user rpwd).trace)⟩
      else
        (locate_cookiefile w (parse_args w.strtol argv) display rpwd tpwd).after
          (identity_calls w user ++
            ((export_check w (parse_args w.strtol argv) user rpwd).trace ++
              (import_check w (parse_args w.strtol argv) user rpwd).trace)) := by
  rw [open_session_of_identities w argv display user rpwd tpwd hd hu hr ht, if_neg hsys,
    check_both_eq]
  split
  · rfl
  · split
    · rfl
    · simp only [Outcome.after, List.append_assoc]

/-- C3.  A call that reaches the access checks goes on to the retrieval of the
cookie (whose first step reads `XAUTHORITY`) if and only if the export check
(subject the invoker, object the target, default Permit for a real uid other
than 0 and Deny for 0) and the import check (subject the target, object the
invoker, default Permit) both return `PAM_SUCCESS`.  Otherwise the result is
`PAM_SESSION_ERR` and every call made is a lookup: no process, no file
created, no change of environment or session data.  An invoker other than root
and a target whose export and import files do not exist (the opens fail with
`ENOENT`) go on; root without an export file is refused. -/
theorem open_session_access_checks (w : World) (argv : List (List Char))
    (display user : List Char) (rpwd tpwd : passwd)
    (hd : w.environ DISPLAYENV = some display) (hu : w.pam_user = some user)
    (hr : w.getpwuid w.uid = some rpwd) (ht : w.getpwnam user = some tpwd)
    (hsys : ¬ (tpwd.pw_uid ≠ 0 ∧ tpwd.pw_uid ≠ (parse_args w.strtol argv).targetuser ∧
      tpwd.pw_uid ≤ (parse_args w.strtol argv).systemuser)) :
    (Event.getenv XAUTHENV ∈ (pam_sm_open_session w argv).trace ↔
      (export_check w (parse_args w.strtol argv) user rpwd).result = PAM_SUCCESS ∧
        (import_check w (parse_args w.strtol argv) user rpwd).result = PAM_SUCCESS) ∧
    ((export_check w (parse_args w.strtol argv) user rpwd).result = PAM_SUCCESS ∧
        (import_check w (parse_args w.strtol argv) user rpwd).result = PAM_SUCCESS →
      pam_sm_open_session w argv =
        (locate_cookiefile w (parse_args w.strtol argv) display rpwd tpwd).after
          (identity_calls w user ++
            ((export_check w (parse_args w.strtol argv) user rpwd).trace ++
              (import_check w (parse_args w.strtol argv) user rpwd).trace))) ∧
    (¬ ((export_check w (parse_args w.strtol argv) user rpwd).result = PAM_SUCCESS ∧
        (import_check w (parse_args w.strtol argv) user rpwd).result = PAM_SUCCESS) →
      (pam_sm_open_session w argv).result = PAM_SESSION_ERR ∧
        ∀ e ∈ (pam_sm_open_session w argv).trace, e.reads_only = true) ∧
    (w.uid ≠ 0 →
      (∃ u p, Event.fopen u p (FopenResult.failed ENOENT) ∈
        (export_check w (parse_args w.strtol argv) user rpwd).trace) →
      (∃ u p, Event.fopen u p (FopenResult.failed ENOENT) ∈
        (import_check w (parse_args w.strtol argv) user rpwd).trace) →
      Event.getenv XAUTHENV ∈ (pam_sm_open_session w argv).trace) ∧
    (w.uid = 0 →
      (∃ u p, Event.fopen u p (FopenResult.failed ENOENT) ∈
        (export_check w (parse_args w.strtol argv) user rpwd).trace) →
      (pam_sm_open_session w argv).result = PAM_SESSION_ERR ∧
        ∀ e ∈ (pam_sm_open_session w argv).trace, e.reads_only = true) := by
  have hopen := open_session_of_checks w argv display user rpwd tpwd hd hu hr ht hsys
  have hex_ro : ∀ e ∈ (export_check w (parse_args w.strtol argv) user rpwd).trace,
      e.reads_only = true := check_acl_reads_only _ _ _ _ _ _
  have him_ro : ∀ e ∈ (import_check w (parse_args w.strtol argv) user rpwd).trace,
      e.reads_only = true := check_acl_reads_only _ _ _ _ _ _
  have hid_ro := identity_calls_reads_only w user
  have hg : (Event.getenv XAUTHENV).reads_only = true := rfl
  have hex_x : Event.getenv XAUTHENV ∉
      (export_check w (parse_args w.strtol argv) user rpwd).trace :=
    getenv_xauth_not_in_check_acl _ _ _ _ _ _
  have him_x : Event.getenv XAUTHENV ∉
      (import_check w (parse_args w.strtol argv) user rpwd).trace :=
    getenv_xauth_not_in_check_acl _ _ _ _ _ _
  have hid_x := getenv_xauth_not_in_identity_calls w user
  have hiff : Event.getenv XAUTHENV ∈ (pam_sm_open_session w argv).trace ↔
      (export_check w (parse_args w.strtol argv) user rpwd).result = PAM_SUCCESS ∧
        (import_check w (parse_args w.strtol argv) user rpwd).result = PAM_SUCCESS := by
    rw [hopen]
    by_cases h1 : (export_check w (parse_args w.strtol argv) user rpwd).result = PAM_SUCCESS
    · by_cases h2 : (import_check w (parse_args w.strtol argv) user rpwd).result = PAM_SUCCESS
      · simp only [h1, h2, ne_eq, not_true_eq_false, if_false, and_self, iff_true]
        simp only [Outcome.after, List.mem_append]
        right
        exact locate_cookiefile_starts _ _ _ _ _
      · simp only [h1, h2, ne_eq, not_true_eq_false, not_false_eq_true, if_false, if_true,
          and_false, iff_false, List.mem_append, not_or]
        exact ⟨hid_x, hex_x, him_x⟩
    · simp only [h1, ne_eq, not_false_eq_true, if_true, false_and, iff_false, List.mem_append,
        not_or]
      exact ⟨hid_x, hex_x⟩
  have hrefuse : ¬ ((export_check w (parse_args w.strtol argv) user rpwd).result = PAM_SUCCESS ∧
        (import_check w (parse_args w.strtol argv) user rpwd).result = PAM_SUCCESS) →
      (pam_sm_open_session w argv).result = PAM_SESSION_ERR ∧
        ∀ e ∈ (pam_sm_open_session w argv).trace, e.reads_only = true := by
    intro hn
    rw [hopen]
    by_cases h1 : (export_check w (parse_args w.strtol argv) user rpwd).result = PAM_SUCCESS
    · have h2 : ¬ (import_check w (parse_args w.strtol argv) user rpwd).result = PAM_SUCCESS :=
        fun h => hn ⟨h1, h⟩
      simp only [h1, h2, ne_eq, not_true_eq_false, not_false_eq_true, if_false, if_true,
        true_and]
      intro e he
      rcases List.mem_append.mp he with he | he
      · exact hid_ro e he
      · rcases List.mem_append.mp he with he | he
        · exact hex_ro e he
        · exact him_ro e he
    · simp only [h1, ne_eq, not_false_eq_true, if_true, true_and]
      intro e he
      rcases List.mem_append.mp he with he | he
      · exact hid_ro e he
      · exact hex_ro e he
  refine ⟨hiff, ?_, hrefuse, ?_, ?_⟩
  · rintro ⟨h1, h2⟩
    rw [hopen]
    simp only [h1, h2, ne_eq, not_true_eq_false, if_false]
  · rintro huid ⟨u1, p1, h1⟩ ⟨u2, p2, h2⟩
    apply hiff.mpr
    constructor
    · have := check_acl_result_of_failed _ _ _ _ _ _ _ _ _ h1
      unfold export_check
      rw [this]
      simp [huid]
    · have := check_acl_result_of_failed _ _ _ _ _ _ _ _ _ h2
      unfold import_check
      rw [this]
      simp
  · rintro huid ⟨u1, p1, h1⟩
    apply hrefuse
    rintro ⟨h, _⟩
    have := check_acl_result_of_failed _ _ _ _ _ _ _ _ _ h1
    unfold export_check at h
    rw [this] at h
    simp [huid, PAM_SUCCESS, PAM_PERM_DENIED] at h

/-- Witness of C3: alice, not root, switches to bob and neither access list
exists, and the call goes on to read `XAUTHORITY`; root switches to bob
without an export file and is refused. -/
theorem open_session_access_checks_witness :
    Event.getenv XAUTHENV ∈ (pam_sm_open_session demoWorld []).trace ∧
      (pam_sm_open_session rootWorld []).result = PAM_SESSION_ERR :=
  ⟨(open_session_access_checks demoWorld [] ":0".toList "bob".toList alice bob rfl rfl rfl rfl
      (by decide)).2.2.2.1 (by decide)
      ⟨1000, "/home/alice/.xauth/export".toList, by decide⟩
      ⟨1001, "/home/bob/.xauth/import".toList, by decide⟩,
    ((open_session_access_checks rootWorld [] ":0".toList "bob".toList
      ⟨"root".toList, 0, 0, "/root".toList⟩ bob rfl rfl rfl rfl
      (by decide)).2.2.2.2 rfl ⟨0, "/root/.xauth/export".toList, by decide⟩).1⟩

/-! ## The subprocess runner -/

/-- The calls of one `run_coprocess`: its own record, then what the child and
the parent do. -/
theorem run_coprocess_trace (p : Child) (input : Option (List Char)) (uid gid : Nat)
    (command : List Char) (va : List (List Char)) :
    ∃ inner, (run_coprocess p input uid gid command va).trace =
        Event.run_coprocess input uid gid command va
          (run_coprocess p input uid gid command va).ret
          (run_coprocess p input uid gid command va).output :: inner ∧
      ∀ e ∈ inner, e = Event.exec gid p.setgid_ok p.setgroups_ok uid p.setuid_ok
          (command :: va.take 8) ∨
        ∃ s, input = some s ∧ e = Event.write_stdin (cstr s) := by
  unfold run_coprocess
  split
  · exact ⟨[], rfl, by simp⟩
  · split
    · exact ⟨[], rfl, by simp⟩
    · split
      · exact ⟨[], rfl, by simp⟩
      · refine ⟨_, rfl, ?_⟩
        cases input <;> simp

theorem run_coprocess_failed_output (p : Child) (input : Option (List Char)) (uid gid : Nat)
    (command : List Char) (va : List (List Char)) :
    (run_coprocess p input uid gid command va).ret = 0 ∨
      ((run_coprocess p input uid gid command va).ret = -1 ∧
        (run_coprocess p input uid gid command va).output = none) := by
  have hloop : ∀ (reads : List ReadResult) (buffer : Option (List Char)),
      (read_loop p.realloc_ok buffer reads).1 = 0 ∨
        ((read_loop p.realloc_ok buffer reads).1 = -1 ∧
          (read_loop p.realloc_ok buffer reads).2 = none) := by
    intro reads
    induction reads with
    | nil => intro buffer; left; rfl
    | cons r rs ih =>
      intro buffer
      cases r with
      | eof => left; rfl
      | err => left; rfl
      | data bytes =>
        unfold read_loop
        split
        · left; rfl
        · split
          · exact ih _
          · right; exact ⟨rfl, rfl⟩
  unfold run_coprocess
  split
  · right; exact ⟨rfl, rfl⟩
  · split
    · right; exact ⟨rfl, rfl⟩
    · split
      · right; exact ⟨rfl, rfl⟩
      · exact hloop _ _

theorem mem_run_coprocess_trace_run (p : Child) (input : Option (List Char)) (uid gid : Nat)
    (command : List Char) (va : List (List Char)) (i : Option (List Char)) (u g : Nat)
    (c : List Char) (a : List (List Char)) (r : Int) (o : Option (List Char)) :
    Event.run_coprocess i u g c a r o ∈ (run_coprocess p input uid gid command va).trace ↔
      i = input ∧ u = uid ∧ g = gid ∧ c = command ∧ a = va ∧
        r = (run_coprocess p input uid gid command va).ret ∧
        o = (run_coprocess p input uid gid command va).output := by
  obtain ⟨inner, h1, h2⟩ := run_coprocess_trace p input uid gid command va
  rw [h1]
  constructor
  · intro h
    rcases List.mem_cons.mp h with h | h
    · injection h with e1 e2 e3 e4 e5 e6 e7
      exact ⟨e1, e2, e3, e4, e5, e6, e7⟩
    · rcases h2 _ h with h | ⟨s, _, h⟩ <;> exact absurd h (by simp)
  · rintro ⟨e1, e2, e3, e4, e5, e6, e7⟩
    subst e1 e2 e3 e4 e5 e6 e7
    exact List.mem_cons_self _ _

theorem run_coprocess_trace_changes (p : Child) (input : Option (List Char)) (uid gid : Nat)
    (command : List Char) (va : List (List Char)) :
    ∀ e ∈ (run_coprocess p input uid gid command va).trace, e.changes_state = false := by
  obtain ⟨inner, h1, h2⟩ := run_coprocess_trace p input uid gid command va
  rw [h1]
  intro e he
  rcases List.mem_cons.mp he with he | he
  · subst he; rfl
  · rcases h2 _ he with h | ⟨s, _, h⟩ <;> subst h <;> rfl

theorem run_coprocess_trace_filter (p : Child) (input : Option (List Char)) (uid gid : Nat)
    (command : List Char) (va : List (List Char)) (f : Event → Bool)
    (hexec : ∀ g a b u c av, f (Event.exec g a b u c av) = false)
    (hwrite : ∀ b, f (Event.write_stdin b) = false) :
    (run_coprocess p input uid gid command va).trace.filter f =
      if f (Event.run_coprocess input uid gid command va
          (run_coprocess p input uid gid command va).ret
          (run_coprocess p input uid gid command va).output) then
        [Event.run_coprocess input uid gid command va
          (run_coprocess p input uid gid command va).ret
          (run_coprocess p input uid gid command va).output]
      else [] := by
  obtain ⟨inner, h1, h2⟩ := run_coprocess_trace p input uid gid command va
  have hin : inner.filter f = [] := by
    rw [List.filter_eq_nil_iff]
    intro e he
    rcases h2 _ he with h | ⟨s, _, h⟩
    · subst h; simp [hexec]
    · subst h; simp [hwrite]
  rw [h1, List.filter_cons, hin]

theorem run_coprocess_trace_find (p : Child) (input : Option (List Char)) (uid gid : Nat)
    (command : List Char) (va : List (List Char)) :
    (run_coprocess p input uid gid command va).trace.find? Event.is_run =
      some (Event.run_coprocess input uid gid command va
        (run_coprocess p input uid gid command va).ret
        (run_coprocess p input uid gid command va).output) := by
  obtain ⟨inner, h1, _⟩ := run_coprocess_trace p input uid gid command va
  rw [h1]
  simp [Event.is_run]

/-! ## pam_sm_open_session: the shape of a call -/

theorem reads_only_not_run (e : Event) (h : e.reads_only = true) : e.is_run = false := by
  cases e <;> simp_all [Event.reads_only, Event.is_run]

theorem reads_only_not_listing (e : Event) (h : e.reads_only = true) :
    e.is_listing = false := by
  cases e <;> simp_all [Event.reads_only, Event.is_listing]

theorem reads_only_not_changes (e : Event) (h : e.reads_only = true) :
    e.changes_state = false := by
  cases e <;> simp_all [Event.reads_only, Event.changes_state]

theorem filter_of_reads_only (pre t : List Event) (f : Event → Bool)
    (hpre : ∀ e ∈ pre, e.reads_only = true)
    (hf : ∀ e : Event, e.reads_only = true → f e = false) :
    (pre ++ t).filter f = t.filter f := by
  rw [List.filter_append]
  have : pre.filter f = [] := by
    rw [List.filter_eq_nil_iff]
    intro e he
    simp [hf e (hpre e he)]
  rw [this, List.nil_append]

theorem find_of_reads_only (pre t : List Event) (hpre : ∀ e ∈ pre, e.reads_only = true) :
    (pre ++ t).find? Event.is_run = t.find? Event.is_run := by
  induction pre with
  | nil => rfl
  | cons a as ih =>
    have ha : a.is_run = false := reads_only_not_run a (hpre a (List.mem_cons_self _ _))
    simp only [List.cons_append, List.find?_cons, ha]
    exact ih (fun e he => hpre e (List.mem_cons_of_mem _ he))

/-- A call either stops with lookups only, or reaches the first listing after
lookups only. -/
theorem open_session_shape (w : World) (argv : List (List Char)) :
    (((pam_sm_open_session w argv).result = PAM_SUCCESS ∨
        (pam_sm_open_session w argv).result = PAM_SESSION_ERR) ∧
      ∀ e ∈ (pam_sm_open_session w argv).trace, e.reads_only = true) ∨
    ∃ display user rpwd tpwd pre,
      w.environ DISPLAYENV = some display ∧ w.pam_user = some user ∧
      w.getpwuid w.uid = some rpwd ∧ w.getpwnam user = some tpwd ∧
      (∀ e ∈ pre, e.reads_only = true) ∧
      pam_sm_open_session w argv =
        (read_cookie w (parse_args w.strtol argv) display tpwd (source_file w rpwd)).after
          pre := by
  cases hd : w.environ DISPLAYENV with
  | none =>
    left
    rw [no_display_outcome w argv hd]
    exact ⟨Or.inl rfl, by simp [Event.reads_only]⟩
  | some display =>
    cases hu : w.pam_user with
    | none =>
      left
      unfold pam_sm_open_session
      simp only [hd, hu]
      refine ⟨by simp, by simp [Event.reads_only]⟩
    | some user =>
      cases hr : w.getpwuid w.uid with
      | none =>
        left
        unfold pam_sm_open_session
        simp only [hd, hu, hr]
        refine ⟨by simp, by simp [Event.reads_only]⟩
      | some rpwd =>
        cases ht : w.getpwnam user with
        | none =>
          left
          unfold pam_sm_open_session
          simp only [hd, hu, hr, ht]
          refine ⟨by simp, by simp [Event.reads_only]⟩
        | some tpwd =>
          have hid := identity_calls_reads_only w user
          have hex : ∀ e ∈ (export_check w (parse_args w.strtol argv) user rpwd).trace,
              e.reads_only = true := check_acl_reads_only _ _ _ _ _ _
          have him : ∀ e ∈ (import_check w (parse_args w.strtol argv) user rpwd).trace,
              e.reads_only = true := check_acl_reads_only _ _ _ _ _ _
          by_cases hsys : tpwd.pw_uid ≠ 0 ∧
              tpwd.pw_uid ≠ (parse_args w.strtol argv).targetuser ∧
              tpwd.pw_uid ≤ (parse_args w.strtol argv).systemuser
          · left
            rw [open_session_of_identities w argv display user rpwd tpwd hd hu hr ht,
              if_pos hsys]
            exact ⟨Or.inr rfl, hid⟩
          · rw [open_session_of_checks w argv display user rpwd tpwd hd hu hr ht hsys]
            split
            · left
              refine ⟨Or.inr rfl, ?_⟩
              intro e he
              rcases List.mem_append.mp he with he | he
              · exact hid e he
              · exact hex e he
            · split
              · left
                refine ⟨Or.inr rfl, ?_⟩
                intro e he
                rcases List.mem_append.mp he with he | he
                · exact hid e he
                · rcases List.mem_append.mp he with he | he
                  · exact hex e he
                  · exact him e he
              · have hpre : ∀ e ∈ identity_calls w user ++
                    ((export_check w (parse_args w.strtol argv) user rpwd).trace ++
                      (import_check w (parse_args w.strtol argv) user rpwd).trace),
                    e.reads_only = true := by
                  intro e he
                  rcases List.mem_append.mp he with he | he
                  · exact hid e he
                  · rcases List.mem_append.mp he with he | he
                    · exact hex e he
                    · exact him e he
                have hx1 : ∀ e ∈ [Event.getenv XAUTHENV], e.reads_only = true := by
                  simp [Event.reads_only]
                have hx2 : ∀ e ∈ [Event.getenv XAUTHENV, Event.getenv XAUTHENV],
                    e.reads_only = true := by
                  simp [Event.reads_only]
                unfold locate_cookiefile source_file
                cases hx : w.environ XAUTHENV with
                | some v =>
                  right
                  refine ⟨display, user, rpwd, tpwd, _, rfl, rfl, rfl, ht,
                    List.forall_mem_append.mpr ⟨hpre, hx2⟩, ?_⟩
                  simp only [Outcome.after, List.append_assoc]
                | none =>
                  simp only []
                  split
                  · left
                    exact ⟨Or.inr rfl, List.forall_mem_append.mpr ⟨hpre, hx1⟩⟩
                  · right
                    refine ⟨display, user, rpwd, tpwd, _, rfl, rfl, rfl, ht,
                      List.forall_mem_append.mpr ⟨hpre, hx1⟩, ?_⟩
                    simp only [Outcome.after, List.append_assoc]

/-! ## pam_sm_open_session: from the first listing on -/

/-- The ways the second listing can go. -/
theorem retry_listing_cases (w : World) (cfg : Config) (display cookiefile : List Char)
    (cookie : Option (List Char)) :
    (¬ (cookie_empty cookie = true ∧ is_local_display display = true) ∧
      retry_listing w cfg display cookiefile cookie = (cookie, [])) ∨
    (cookie_empty cookie = true ∧ is_local_display display = true ∧
      (retry_listing w cfg display cookiefile cookie = (none, []) ∨
        retry_listing w cfg display cookiefile cookie = (none, [Event.gethostname none]) ∨
        ∃ host, retry_listing w cfg display cookiefile cookie =
          ((second_listing w cfg display cookiefile host).output,
            Event.gethostname (some host) ::
              (second_listing w cfg display cookiefile host).trace))) := by
  unfold retry_listing
  by_cases h : cookie_empty cookie = true ∧ is_local_display display = true
  · right
    refine ⟨h.1, h.2, ?_⟩
    rw [if_pos h]
    split
    · left; rfl
    · split
      · right; left; rfl
      · rename_i host _
        right; right
        exact ⟨host, rfl⟩
  · left
    exact ⟨h, by rw [if_neg h]⟩

/-- The ways the creation of the target's file and the merge can go. -/
theorem forward_cookie_cases (w : World) (cfg : Config) (display : List Char) (tpwd : passwd)
    (cookie : List Char) :
    forward_cookie w cfg display tpwd cookie = ⟨PAM_SESSION_ERR, []⟩ ∨
    forward_cookie w cfg display tpwd cookie = ⟨PAM_SESSION_ERR,
      [Event.mkstemp tpwd.pw_uid (tpwd.pw_dir ++ "/".toList ++ XAUTHTMP) none]⟩ ∨
    ∃ suffix,
      forward_cookie w cfg display tpwd cookie = ⟨PAM_SESSION_ERR,
        [Event.mkstemp tpwd.pw_uid (tpwd.pw_dir ++ "/".toList ++ XAUTHTMP)
            (some (mkstemp_name (tpwd.pw_dir ++ "/".toList ++ XAUTHTMP) suffix)),
          Event.fchown (mkstemp_name (tpwd.pw_dir ++ "/".toList ++ XAUTHTMP) suffix)
            tpwd.pw_uid tpwd.pw_gid,
          Event.pam_set_data DATANAME
            (mkstemp_name (tpwd.pw_dir ++ "/".toList ++ XAUTHTMP) suffix) false,
          Event.unlink (mkstemp_name (tpwd.pw_dir ++ "/".toList ++ XAUTHTMP) suffix)
            (w.unlink_ok (mkstemp_name (tpwd.pw_dir ++ "/".toList ++ XAUTHTMP) suffix))]⟩ ∨
      forward_cookie w cfg display tpwd cookie = ⟨PAM_SESSION_ERR,
        publish_calls w tpwd (mkstemp_name (tpwd.pw_dir ++ "/".toList ++ XAUTHTMP) suffix)⟩ ∨
      forward_cookie w cfg display tpwd cookie = ⟨PAM_SUCCESS,
        publish_calls w tpwd (mkstemp_name (tpwd.pw_dir ++ "/".toList ++ XAUTHTMP) suffix) ++
          [Event.pam_putenv ("DISPLAY=".toList ++ display)] ++
          (merge_call w cfg tpwd cookie
            (mkstemp_name (tpwd.pw_dir ++ "/".toList ++ XAUTHTMP) suffix)).trace⟩ := by
  simp only [forward_cookie]
  cases h1 : w.malloc_xauthority with
  | false =>
    left
    simp only [Bool.not_false, if_true]
  | true =>
    right
    simp only [Bool.not_true, Bool.false_eq_true, if_false]
    cases hm : w.mkstemp tpwd.pw_uid (tpwd.pw_dir ++ "/".toList ++ XAUTHTMP) with
    | none => left; rfl
    | some suffix =>
      right
      refine ⟨suffix, ?_⟩
      simp only []
      cases h2 : w.pam_set_data_ok with
      | false =>
        left
        simp only [Bool.not_false, if_true, List.cons_append, List.nil_append]
      | true =>
        right
        simp only [Bool.not_true, Bool.false_eq_true, if_false]
        cases h3 : w.malloc_d with
        | false =>
          left
          simp only [Bool.not_false, if_true, publish_calls, List.append_assoc,
            List.cons_append, List.nil_append]
        | true =>
          right
          simp only [Bool.not_true, Bool.false_eq_true, if_false, publish_calls, merge_call,
            List.append_assoc, List.cons_append, List.nil_append]

/-- The ways a call can go from the first listing on. -/
theorem read_cookie_cases (w : World) (cfg : Config) (display : List Char) (tpwd : passwd)
    (cookiefile : List Char) :
    ((first_listing w cfg display cookiefile).ret ≠ 0 ∧
      read_cookie w cfg display tpwd cookiefile =
        ⟨PAM_SUCCESS, (first_listing w cfg display cookiefile).trace⟩) ∨
    ((first_listing w cfg display cookiefile).ret = 0 ∧
      ((cookie_empty (retry_listing w cfg display cookiefile
            (first_listing w cfg display cookiefile).output).1 = true ∧
          read_cookie w cfg display tpwd cookiefile =
            ⟨PAM_SESSION_ERR, (first_listing w cfg display cookiefile).trace ++
              (retry_listing w cfg display cookiefile
                (first_listing w cfg display cookiefile).output).2⟩) ∨
        ∃ cookie, (retry_listing w cfg display cookiefile
              (first_listing w cfg display cookiefile).output).1 = some cookie ∧
          cstr cookie ≠ [] ∧
          read_cookie w cfg display tpwd cookiefile =
            (forward_cookie w cfg display tpwd cookie).after
              ((first_listing w cfg display cookiefile).trace ++
                (retry_listing w cfg display cookiefile
                  (first_listing w cfg display cookiefile).output).2))) := by
  simp only [read_cookie, first_listing]
  by_cases h : (run_coprocess w.nlist_proc none w.uid w.gid cfg.xauth
      ["-f".toList, cookiefile, "nlist".toList, display]).ret = 0
  · right
    refine ⟨h, ?_⟩
    rw [if_pos h]
    cases hc : (retry_listing w cfg display cookiefile
        (run_coprocess w.nlist_proc none w.uid w.gid cfg.xauth
          ["-f".toList, cookiefile, "nlist".toList, display]).output).1 with
    | none =>
      left
      exact ⟨rfl, rfl⟩
    | some cookie =>
      simp only []
      by_cases he : (cstr cookie).length = 0
      · left
        rw [if_pos he]
        exact ⟨by simp [cookie_empty, he], rfl⟩
      · right
        rw [if_neg he]
        exact ⟨cookie, rfl, fun hn => he (by rw [hn]; rfl), rfl⟩
  · left
    rw [if_neg h]
    exact ⟨h, rfl⟩

theorem find_run_none_of_reads_only (l : List Event) (h : ∀ e ∈ l, e.reads_only = true) :
    l.find? Event.is_run = none := by
  have := find_of_reads_only l [] h
  simpa using this

/-- The first call of the subprocess runner from the first listing on is the
first listing. -/
theorem read_cookie_first_run (w : World) (cfg : Config) (display : List Char) (tpwd : passwd)
    (cookiefile : List Char) :
    (read_cookie w cfg display tpwd cookiefile).trace.find? Event.is_run =
      some (Event.run_coprocess none w.uid w.gid cfg.xauth
        ["-f".toList, cookiefile, "nlist".toList, display]
        (first_listing w cfg display cookiefile).ret
        (first_listing w cfg display cookiefile).output) := by
  have hf : (first_listing w cfg display cookiefile).trace.find? Event.is_run =
      some (Event.run_coprocess none w.uid w.gid cfg.xauth
        ["-f".toList, cookiefile, "nlist".toList, display]
        (first_listing w cfg display cookiefile).ret
        (first_listing w cfg display cookiefile).output) :=
    run_coprocess_trace_find _ _ _ _ _ _
  rcases read_cookie_cases w cfg display tpwd cookiefile with ⟨_, h⟩ | ⟨_, ⟨_, h⟩ | ⟨c, _, _, h⟩⟩
  · rw [h]
    exact hf
  · rw [h]
    simp only [List.find?_append, hf, Option.or_some]
  · rw [h]
    simp only [Outcome.after, List.find?_append, hf, Option.or_some]

/-- C10.  When the first call of the subprocess runner in `pam_sm_open_session`
does not return 0 (pipe, fork or allocation failed and it returned -1), the
result is `PAM_SUCCESS`, this call is the only call of the runner (no second
listing, no merge) and no call creates a file, stores session data or changes
the environment. -/
theorem open_session_runner_fails (w : World) (argv : List (List Char))
    (input : Option (List Char)) (uid gid : Nat) (cmd : List Char) (args : List (List Char))
    (ret : Int) (out : Option (List Char))
    (hfirst : (pam_sm_open_session w argv).trace.find? Event.is_run =
      some (Event.run_coprocess input uid gid cmd args ret out))
    (hret : ret ≠ 0) :
    (pam_sm_open_session w argv).result = PAM_SUCCESS ∧
      (pam_sm_open_session w argv).trace.filter Event.is_run =
        [Event.run_coprocess input uid gid cmd args ret out] ∧
      (∀ e ∈ (pam_sm_open_session w argv).trace, e.changes_state = false) ∧
      ret = -1 := by
  rcases open_session_shape w argv with ⟨_, hro⟩ | ⟨display, user, rpwd, tpwd, pre, _, _, _, _,
    hpre, heq⟩
  · rw [find_run_none_of_reads_only _ hro] at hfirst
    exact absurd hfirst (by simp)
  · rw [heq] at hfirst ⊢
    simp only [Outcome.after] at hfirst ⊢
    rw [find_of_reads_only pre _ hpre, read_cookie_first_run] at hfirst
    injection hfirst with hfirst
    injection hfirst with e1 e2 e3 e4 e5 e6 e7
    subst e1 e2 e3 e4 e5 e6 e7
    rcases read_cookie_cases w (parse_args w.strtol argv) display tpwd (source_file w rpwd) with
      ⟨_, h⟩ | ⟨h0, _⟩
    · rw [h]
      refine ⟨rfl, ?_, ?_, ?_⟩
      · rw [filter_of_reads_only pre _ _ hpre reads_only_not_run]
        show (first_listing _ _ _ _).trace.filter Event.is_run = _
        unfold first_listing
        rw [run_coprocess_trace_filter _ _ _ _ _ _ _ (fun _ _ _ _ _ _ => rfl) (fun _ => rfl)]
        rfl
      · intro e he
        rcases List.mem_append.mp he with he | he
        · exact reads_only_not_changes e (hpre e he)
        · exact run_coprocess_trace_changes _ _ _ _ _ _ e he
      · rcases run_coprocess_failed_output w.nlist_proc none w.uid w.gid
          (parse_args w.strtol argv).xauth
          ["-f".toList, source_file w rpwd, "nlist".toList, display] with h1 | ⟨h1, _⟩
        · exact absurd h1 hret
        · exact h1
    · exact absurd h0 hret

theorem first_listing_mem (w : World) (cfg : Config) (display cookiefile : List Char) :
    Event.run_coprocess none w.uid w.gid cfg.xauth
        ["-f".toList, cookiefile, "nlist".toList, display]
        (first_listing w cfg display cookiefile).ret
        (first_listing w cfg display cookiefile).output ∈
      (first_listing w cfg display cookiefile).trace :=
  (mem_run_coprocess_trace_run _ _ _ _ _ _ _ _ _ _ _ _ _).mpr ⟨rfl, rfl, rfl, rfl, rfl, rfl, rfl⟩

theorem second_listing_mem (w : World) (cfg : Config) (display cookiefile host : List Char) :
    Event.run_coprocess none w.uid w.gid cfg.xauth
        ["-f".toList, cookiefile, "nlist".toList, local_display_name w.LINE_MAX display host]
        (second_listing w cfg display cookiefile host).ret
        (second_listing w cfg display cookiefile host).output ∈
      (second_listing w cfg display cookiefile host).trace :=
  (mem_run_coprocess_trace_run _ _ _ _ _ _ _ _ _ _ _ _ _).mpr ⟨rfl, rfl, rfl, rfl, rfl, rfl, rfl⟩

theorem retry_listing_changes (w : World) (cfg : Config) (display cookiefile : List Char)
    (cookie : Option (List Char)) :
    ∀ e ∈ (retry_listing w cfg display cookiefile cookie).2, e.changes_state = false := by
  rcases retry_listing_cases w cfg display cookiefile cookie with
    ⟨_, h⟩ | ⟨_, _, h | h | ⟨host, h⟩⟩ <;> rw [h]
  · simp
  · simp
  · simp [Event.changes_state]
  · intro e he
    rcases List.mem_cons.mp he with he | he
    · subst he; rfl
    · exact run_coprocess_trace_changes _ _ _ _ _ _ e he

/-- Where the cookie that is forwarded comes from: the first listing when no
second one is made, else the second listing. -/
theorem retry_listing_some (w : World) (cfg : Config) (display cookiefile : List Char)
    (cookie : Option (List Char)) (c : List Char)
    (h : (retry_listing w cfg display cookiefile cookie).1 = some c) :
    (cookie = some c ∧ (retry_listing w cfg display cookiefile cookie).2 = []) ∨
    (cookie_empty cookie = true ∧ is_local_display display = true ∧
      ∃ host, (second_listing w cfg display cookiefile host).output = some c ∧
        (retry_listing w cfg display cookiefile cookie).2 =
          Event.gethostname (some host) ::
            (second_listing w cfg display cookiefile host).trace) := by
  rcases retry_listing_cases w cfg display cookiefile cookie with
    ⟨_, h1⟩ | ⟨he, hl, h1 | h1 | ⟨host, h1⟩⟩ <;> rw [h1] at h ⊢
  · left; exact ⟨h, rfl⟩
  · exact absurd h (by simp)
  · exact absurd h (by simp)
  · right
    exact ⟨he, hl, host, h, rfl⟩

theorem read_cookie_no_cookie (w : World) (cfg : Config) (display : List Char) (tpwd : passwd)
    (cookiefile : List Char) (h0 : (first_listing w cfg display cookiefile).ret = 0)
    (hempty : ∀ e ∈ (read_cookie w cfg display tpwd cookiefile).trace,
      e.is_listing = true → cookie_empty e.captured = true) :
    (read_cookie w cfg display tpwd cookiefile).result = PAM_SESSION_ERR ∧
      ∀ e ∈ (read_cookie w cfg display tpwd cookiefile).trace, e.changes_state = false := by
  rcases read_cookie_cases w cfg display tpwd cookiefile with
    ⟨hn, _⟩ | ⟨_, ⟨_, h⟩ | ⟨c, hc, hne, h⟩⟩
  · exact absurd h0 hn
  · rw [h]
    refine ⟨rfl, ?_⟩
    intro e he
    rcases List.mem_append.mp he with he | he
    · exact run_coprocess_trace_changes _ _ _ _ _ _ e he
    · exact retry_listing_changes _ _ _ _ _ e he
  · exfalso
    rw [h] at hempty
    simp only [Outcome.after] at hempty
    have hcne : cookie_empty (some c) = false := by
      simp only [cookie_empty, decide_eq_false_iff_not]
      intro hl
      exact hne (List.length_eq_zero.mp hl)
    rcases retry_listing_some w cfg display cookiefile _ c hc with ⟨h1, _⟩ | ⟨_, _, host, h1, h2⟩
    · have := hempty _
        (List.mem_append_left _ (List.mem_append_left _ (first_listing_mem w cfg display cookiefile)))
        (by simp [Event.is_listing])
      simp only [Event.captured] at this
      rw [h1, hcne] at this
      exact absurd this (by simp)
    · have := hempty _
        (List.mem_append_left _ (List.mem_append_right _
          (by rw [h2]; exact List.mem_cons_of_mem _ (second_listing_mem w cfg display cookiefile host))))
        (by simp [Event.is_listing])
      simp only [Event.captured] at this
      rw [h1, hcne] at this
      exact absurd this (by simp)

theorem forward_cookie_no_listing (w : World) (cfg : Config) (display : List Char)
    (tpwd : passwd) (cookie : List Char) :
    (forward_cookie w cfg display tpwd cookie).trace.filter Event.is_listing = [] := by
  have hm : ∀ newfile, (merge_call w cfg tpwd cookie newfile).trace.filter Event.is_listing
      = [] := by
    intro newfile
    unfold merge_call
    rw [run_coprocess_trace_filter _ _ _ _ _ _ _ (fun _ _ _ _ _ _ => rfl) (fun _ => rfl)]
    simp [Event.is_listing]
  have hp : ∀ newfile, (publish_calls w tpwd newfile).filter Event.is_listing = [] := by
    intro newfile
    unfold publish_calls
    cases w.environ XAUTHENV <;> simp [Event.is_listing]
  rcases forward_cookie_cases w cfg display tpwd cookie with
    h | h | ⟨suffix, h | h | h⟩ <;> rw [h]
  · rfl
  · simp [Event.is_listing]
  · simp [Event.is_listing]
  · exact hp _
  · simp only [List.filter_append, hp, hm]
    simp [Event.is_listing]

/-- The listing calls from the first listing on: the first one, and a second
one only after a first one that returned 0 with no cookie, for a local display. -/
theorem read_cookie_listings (w : World) (cfg : Config) (display : List Char) (tpwd : passwd)
    (cookiefile : List Char) :
    (read_cookie w cfg display tpwd cookiefile).trace.filter Event.is_listing =
        [Event.run_coprocess none w.uid w.gid cfg.xauth
          ["-f".toList, cookiefile, "nlist".toList, display]
          (first_listing w cfg display cookiefile).ret
          (first_listing w cfg display cookiefile).output] ∨
    ((first_listing w cfg display cookiefile).ret = 0 ∧
      cookie_empty (first_listing w cfg display cookiefile).output = true ∧
      is_local_display display = true ∧
      ∃ host, (read_cookie w cfg display tpwd cookiefile).trace.filter Event.is_listing =
        [Event.run_coprocess none w.uid w.gid cfg.xauth
          ["-f".toList, cookiefile, "nlist".toList, display]
          (first_listing w cfg display cookiefile).ret
          (first_listing w cfg display cookiefile).output,
         Event.run_coprocess none w.uid w.gid cfg.xauth
          ["-f".toList, cookiefile, "nlist".toList, local_display_name w.LINE_MAX display host]
          (second_listing w cfg display cookiefile host).ret
          (second_listing w cfg display cookiefile host).output]) := by
  have hf : (first_listing w cfg display cookiefile).trace.filter Event.is_listing =
      [Event.run_coprocess none w.uid w.gid cfg.xauth
          ["-f".toList, cookiefile, "nlist".toList, display]
          (first_listing w cfg display cookiefile).ret
          (first_listing w cfg display cookiefile).output] := by
    unfold first_listing
    rw [run_coprocess_trace_filter _ _ _ _ _ _ _ (fun _ _ _ _ _ _ => rfl) (fun _ => rfl)]
    simp [Event.is_listing]
  have hs : ∀ host, (second_listing w cfg display cookiefile host).trace.filter
      Event.is_listing =
      [Event.run_coprocess none w.uid w.gid cfg.xauth
          ["-f".toList, cookiefile, "nlist".toList, local_display_name w.LINE_MAX display host]
          (second_listing w cfg display cookiefile host).ret
          (second_listing w cfg display cookiefile host).output] := by
    intro host
    unfold second_listing
    rw [run_coprocess_trace_filter _ _ _ _ _ _ _ (fun _ _ _ _ _ _ => rfl) (fun _ => rfl)]
    simp [Event.is_listing]
  have hfw := forward_cookie_no_listing w cfg display tpwd
  rcases read_cookie_cases w cfg display tpwd cookiefile with
    ⟨_, h⟩ | ⟨h0, hrest⟩
  · left
    rw [h]
    exact hf
  · have hmid : ∀ tail : List Event, tail.filter Event.is_listing = [] →
        ((first_listing w cfg display cookiefile).trace ++
          (retry_listing w cfg display cookiefile
            (first_listing w cfg display cookiefile).output).2 ++ tail).filter
            Event.is_listing =
          [Event.run_coprocess none w.uid w.gid cfg.xauth
            ["-f".toList, cookiefile, "nlist".toList, display]
            (first_listing w cfg display cookiefile).ret
            (first_listing w cfg display cookiefile).output] ∨
        (cookie_empty (first_listing w cfg display cookiefile).output = true ∧
          is_local_display display = true ∧
          ∃ host, ((first_listing w cfg display cookiefile).trace ++
            (retry_listing w cfg display cookiefile
              (first_listing w cfg display cookiefile).output).2 ++ tail).filter
              Event.is_listing =
            [Event.run_coprocess none w.uid w.gid cfg.xauth
              ["-f".toList, cookiefile, "nlist".toList, display]
              (first_listing w cfg display cookiefile).ret
              (first_listing w cfg display cookiefile).output,
             Event.run_coprocess none w.uid w.gid cfg.xauth
              ["-f".toList, cookiefile, "nlist".toList,
                local_display_name w.LINE_MAX display host]
              (second_listing w cfg display cookiefile host).ret
              (second_listing w cfg display cookiefile host).output]) := by
      intro tail htail
      rcases retry_listing_cases w cfg display cookiefile
          (first_listing w cfg display cookiefile).output with
        ⟨_, h⟩ | ⟨he, hl, h | h | ⟨host, h⟩⟩
      · left
        rw [h]
        simp only [List.filter_append, hf, htail, List.filter_nil, List.append_nil]
      · left
        rw [h]
        simp only [List.filter_append, hf, htail, List.filter_nil, List.append_nil]
      · left
        rw [h]
        simp [List.filter_append, hf, htail, Event.is_listing]
      · right
        refine ⟨he, hl, host, ?_⟩
        rw [h]
        simp [List.filter_append, hf, hs, htail, Event.is_listing]
    rcases hrest with ⟨_, h⟩ | ⟨c, _, _, h⟩
    · rw [h]
      have := hmid [] rfl
      simp only [List.append_nil] at this
      rcases this with h1 | ⟨a, b, host, h1⟩
      · left; exact h1
      · right; exact ⟨h0, a, b, host, h1⟩
    · rw [h]
      simp only [Outcome.after]
      rcases hmid _ (hfw c) with h1 | ⟨a, b, host, h1⟩
      · left; exact h1
      · right; exact ⟨h0, a, b, host, h1⟩

/-- Witness of C10: the pipes of the first listing cannot be made. -/
theorem open_session_runner_fails_witness :
    (pam_sm_open_session failingRunnerWorld []).result = PAM_SUCCESS :=
  (open_session_runner_fails failingRunnerWorld [] none 1000 100 XAUTHBIN
    ["-f".toList, "/home/alice/.Xauthority".toList, "nlist".toList, ":0".toList] (-1) none
    (by decide) (by decide)).1

/-- C8.  If the first call of the subprocess runner returns 0 and every listing
call made leaves no cookie (`*output` NULL or an empty string), then the result
is `PAM_SESSION_ERR` and no call creates a file, stores session data or changes
the environment.  In every call there are at most two listings, and a second
one only after a first one that returned 0 without a cookie, for a display
name starting with "localhost:" or "localhost/unix:". -/
theorem open_session_no_cookie (w : World) (argv : List (List Char)) :
    (∀ input uid gid cmd args out,
      (pam_sm_open_session w argv).trace.find? Event.is_run =
        some (Event.run_coprocess input uid gid cmd args 0 out) →
      (∀ e ∈ (pam_sm_open_session w argv).trace,
        e.is_listing = true → cookie_empty e.captured = true) →
      (pam_sm_open_session w argv).result = PAM_SESSION_ERR ∧
        ∀ e ∈ (pam_sm_open_session w argv).trace, e.changes_state = false) ∧
    ((pam_sm_open_session w argv).trace.filter Event.is_listing).length ≤ 2 ∧
    (∀ e1 e2 rest,
      (pam_sm_open_session w argv).trace.filter Event.is_listing = e1 :: e2 :: rest →
      rest = [] ∧
      ∃ display args out, w.environ DISPLAYENV = some display ∧
        is_local_display display = true ∧
        e1 = Event.run_coprocess none w.uid w.gid (parse_args w.strtol argv).xauth args 0 out ∧
        cookie_empty out = true) := by
  rcases open_session_shape w argv with ⟨_, hro⟩ | ⟨display, user, rpwd, tpwd, pre, hd, _, _, _,
    hpre, heq⟩
  · have hfl : (pam_sm_open_session w argv).trace.filter Event.is_listing = [] := by
      have := filter_of_reads_only (pam_sm_open_session w argv).trace [] Event.is_listing hro
        reads_only_not_listing
      simpa using this
    refine ⟨?_, ?_, ?_⟩
    · intro input uid gid cmd args out hfirst
      rw [find_run_none_of_reads_only _ hro] at hfirst
      exact absurd hfirst (by simp)
    · rw [hfl]; simp
    · intro e1 e2 rest h
      rw [hfl] at h
      exact absurd h (by simp)
  · have hfl : (pam_sm_open_session w argv).trace.filter Event.is_listing =
        (read_cookie w (parse_args w.strtol argv) display tpwd (source_file w rpwd)).trace.filter
          Event.is_listing := by
      rw [heq]
      exact filter_of_reads_only pre _ _ hpre reads_only_not_listing
    refine ⟨?_, ?_, ?_⟩
    · intro input uid gid cmd args out hfirst hempty
      rw [heq] at hfirst hempty ⊢
      simp only [Outcome.after] at hfirst hempty ⊢
      rw [find_of_reads_only pre _ hpre, read_cookie_first_run] at hfirst
      injection hfirst with hfirst
      injection hfirst with e1 e2 e3 e4 e5 e6 e7
      have h := read_cookie_no_cookie w (parse_args w.strtol argv) display tpwd
        (source_file w rpwd) e6
        (fun e hm hl => hempty e (List.mem_append_right _ hm) hl)
      refine ⟨h.1, ?_⟩
      intro e he
      rcases List.mem_append.mp he with he | he
      · exact reads_only_not_changes e (hpre e he)
      · exact h.2 e he
    · rw [hfl]
      rcases read_cookie_listings w (parse_args w.strtol argv) display tpwd
          (source_file w rpwd) with h | ⟨_, _, _, host, h⟩ <;> rw [h] <;> simp
    · intro e1 e2 rest h
      rw [hfl] at h
      rcases read_cookie_listings w (parse_args w.strtol argv) display tpwd
          (source_file w rpwd) with h1 | ⟨h0, he, hl, host, h1⟩
      · rw [h1] at h
        simp at h
      · rw [h1] at h
        injection h with h2 h3
        injection h3 with h3 h4
        refine ⟨h4.symm, display,
          ["-f".toList, source_file w rpwd, "nlist".toList, display],
          (first_listing w (parse_args w.strtol argv) display (source_file w rpwd)).output,
          hd, hl, ?_, he⟩
        rw [← h2, h0]

/-- Witness of C8: on "localhost:10.0" both listings give nothing. -/
theorem open_session_no_cookie_witness :
    (pam_sm_open_session noCookieWorld []).result = PAM_SESSION_ERR :=
  ((open_session_no_cookie noCookieWorld []).1 none 1000 100 XAUTHBIN
    ["-f".toList, "/home/alice/.Xauthority".toList, "nlist".toList, "localhost:10.0".toList]
    none (by decide) (by decide)).1

/-! ## pam_sm_open_session: the calls of the subprocess runner -/

theorem not_mem_run_coprocess_trace_of_changes (p : Child) (input : Option (List Char))
    (uid gid : Nat) (command : List Char) (va : List (List Char)) (e : Event)
    (he : e.changes_state = true) : e ∉ (run_coprocess p input uid gid command va).trace := by
  intro hm
  have := run_coprocess_trace_changes p input uid gid command va e hm
  rw [he] at this
  exact absurd this (by simp)

theorem publish_calls_mem (w : World) (tpwd : passwd) (newfile : List Char) :
    Event.mkstemp tpwd.pw_uid (tpwd.pw_dir ++ "/".toList ++ XAUTHTMP) (some newfile) ∈
        publish_calls w tpwd newfile ∧
      Event.fchown newfile tpwd.pw_uid tpwd.pw_gid ∈ publish_calls w tpwd newfile ∧
      Event.pam_set_data DATANAME newfile true ∈ publish_calls w tpwd newfile ∧
      Event.pam_putenv (XAUTHENV ++ "=".toList ++ newfile) ∈ publish_calls w tpwd newfile ∧
      Event.putenv (XAUTHENV ++ "=".toList ++ newfile) ∈ publish_calls w tpwd newfile := by
  unfold publish_calls
  cases w.environ XAUTHENV <;> simp

theorem mkstemp_name_ne_nil (dir suffix : List Char) :
    mkstemp_name (dir ++ "/".toList ++ XAUTHTMP) suffix ≠ [] := by
  intro h
  have hl := congrArg List.length h
  simp [mkstemp_name, XAUTHTMP] at hl

theorem publish_calls_set_data (w : World) (tpwd : passwd) (newfile key value : List Char)
    (ok : Bool) (h : Event.pam_set_data key value ok ∈ publish_calls w tpwd newfile) :
    key = DATANAME ∧ value = newfile := by
  unfold publish_calls at h
  cases hx : w.environ XAUTHENV with
  | none =>
    rw [hx] at h
    simp at h
    exact ⟨h.1, h.2.1⟩
  | some v =>
    rw [hx] at h
    simp at h
    exact ⟨h.1, h.2.1⟩

/-- The name `pam_sm_open_session` stores as session data is the name of the
file `mkstemp` made, and is not empty. -/
theorem open_session_stored (w : World) (argv : List (List Char)) (key value : List Char)
    (h : Event.pam_set_data key value true ∈ (pam_sm_open_session w argv).trace) :
    key = DATANAME ∧ value ≠ [] ∧
      ∃ fsuid template, Event.mkstemp fsuid template (some value) ∈
        (pam_sm_open_session w argv).trace := by
  have hch : (Event.pam_set_data key value true).changes_state = true := rfl
  rcases open_session_shape w argv with ⟨_, hro⟩ | ⟨display, user, rpwd, tpwd, pre, _, _, _,
    _, hpre, heq⟩
  · have := hro _ h
    simp [Event.reads_only] at this
  · rw [heq] at h ⊢
    simp only [Outcome.after] at h ⊢
    rcases List.mem_append.mp h with h | h
    · have := hpre _ h
      simp [Event.reads_only] at this
    · have hnf : Event.pam_set_data key value true ∉
          (first_listing w (parse_args w.strtol argv) display (source_file w rpwd)).trace :=
        not_mem_run_coprocess_trace_of_changes _ _ _ _ _ _ _ hch
      have hnr : Event.pam_set_data key value true ∉
          (retry_listing w (parse_args w.strtol argv) display (source_file w rpwd)
            (first_listing w (parse_args w.strtol argv) display
              (source_file w rpwd)).output).2 := by
        intro hm
        have := retry_listing_changes _ _ _ _ _ _ hm
        rw [hch] at this
        exact absurd this (by simp)
      rcases read_cookie_cases w (parse_args w.strtol argv) display tpwd (source_file w rpwd)
        with ⟨_, h1⟩ | ⟨_, ⟨_, h1⟩ | ⟨cookie, _, _, h1⟩⟩ <;> rw [h1] at h ⊢
      · exact absurd h hnf
      · rcases List.mem_append.mp h with h | h
        · exact absurd h hnf
        · exact absurd h hnr
      · simp only [Outcome.after] at h ⊢
        rcases List.mem_append.mp h with h | h
        · rcases List.mem_append.mp h with h | h
          · exact absurd h hnf
          · exact absurd h hnr
        · have hfw : key = DATANAME ∧ value ≠ [] ∧
              ∃ fsuid template, Event.mkstemp fsuid template (some value) ∈
                (forward_cookie w (parse_args w.strtol argv) display tpwd cookie).trace := by
            rcases forward_cookie_cases w (parse_args w.strtol argv) display tpwd cookie with
              h2 | h2 | ⟨suffix, h2 | h2 | h2⟩ <;> rw [h2] at h ⊢
            · exact absurd h (by simp)
            · exact absurd h (by simp)
            · exact absurd h (by simp)
            · obtain ⟨e1, e2⟩ := publish_calls_set_data _ _ _ _ _ _ h
              subst e2
              exact ⟨e1, mkstemp_name_ne_nil _ _, _, _, (publish_calls_mem w tpwd _).1⟩
            · simp only [List.mem_append, List.mem_singleton, reduceCtorEq, or_false] at h
              rcases h with h | h
              · obtain ⟨e1, e2⟩ := publish_calls_set_data _ _ _ _ _ _ h
                subst e2
                exact ⟨e1, mkstemp_name_ne_nil _ _, _, _,
                  List.mem_append_left _ (List.mem_append_left _ (publish_calls_mem w tpwd _).1)⟩
              · exact absurd h (not_mem_run_coprocess_trace_of_changes _ _ _ _ _ _ _ hch)
          obtain ⟨e1, e2, fsuid, template, e3⟩ := hfw
          exact ⟨e1, e2, fsuid, template, List.mem_append_right _ (List.mem_append_right _ e3)⟩

/-- C6.  `pam_sm_close_session` always returns `PAM_SUCCESS`, whether `unlink`
succeeds or not.  Without session data it removes nothing.  With the name that
`pam_sm_open_session` stored, a first call makes one `unlink`, of that name,
and leaves the empty string as session data; a second call then makes no
`unlink`, leaves the session data as it is and returns `PAM_SUCCESS`. -/
theorem close_session_once (w1 w2 : World) (argv1 argv2 : List (List Char)) :
    (∀ data, (pam_sm_close_session w1 data argv1).result = PAM_SUCCESS) ∧
    ((pam_sm_close_session w1 none argv1).trace = [] ∧
      (pam_sm_close_session w1 none argv1).data = none) ∧
    (∀ (w : World) (argv : List (List Char)) (path : List Char),
      Event.pam_set_data DATANAME path true ∈ (pam_sm_open_session w argv).trace →
      (pam_sm_close_session w1 (some path) argv1).result = PAM_SUCCESS ∧
      (pam_sm_close_session w1 (some path) argv1).trace =
        [Event.unlink path (w1.unlink_ok path)] ∧
      (pam_sm_close_session w1 (some path) argv1).data = some [] ∧
      (pam_sm_close_session w2 (pam_sm_close_session w1 (some path) argv1).data argv2).result =
        PAM_SUCCESS ∧
      (pam_sm_close_session w2 (pam_sm_close_session w1 (some path) argv1).data argv2).trace =
        [] ∧
      (pam_sm_close_session w2 (pam_sm_close_session w1 (some path) argv1).data argv2).data =
        (pam_sm_close_session w1 (some path) argv1).data) := by
  refine ⟨?_, ⟨rfl, rfl⟩, ?_⟩
  · intro data
    unfold pam_sm_close_session
    cases data with
    | none => rfl
    | some cookiefile =>
      simp only []
      split <;> rfl
  · intro w argv path h
    have hne : 0 < path.length :=
      List.length_pos.mpr (open_session_stored w argv DATANAME path h).2.1
    simp [pam_sm_close_session, hne]

/-- Witness of C6: the demo session stored "/home/bob/.xauthAbCdEf"; the first
close removes it, although `unlink` fails. -/
theorem close_session_once_witness :
    (pam_sm_close_session { demoWorld with unlink_ok := fun _ => false }
        (some "/home/bob/.xauthAbCdEf".toList) []).trace =
      [Event.unlink "/home/bob/.xauthAbCdEf".toList false] :=
  ((close_session_once { demoWorld with unlink_ok := fun _ => false } demoWorld [] []).2.2
    demoWorld [] "/home/bob/.xauthAbCdEf".toList (by decide)).2.1

end PamXauth
